import Mathlib

/-!
# Container Device Interface: specification model, validation and merge engine

A shallow embedding of the Go sources

* `specs-go/config.go`      (the raw document types),
* `specs-go/oce_test.go`    (the test table of `ApplyEditsToOCISpec`),
* `pkg/cdi/container-edits.go`, `pkg/cdi/spec.go`, `schema/pkg/cdi/device.go`,
* `schema/schema.go`         (the data validation of a `Schema`).

Conventions of the embedding.

* A Go pointer that may be nil is an `Option`; a slice is a `List` (a nil slice
  and an empty slice are both `[]`); the entries of `[]*T` slices are taken to be
  non-nil and are stored by value.
* A Go `map[string]T` is an association list read with `Map.get` and written
  with `Map.set`.
* An `error` is a value of `Error`; each constructor stands for one
  `fmt.Errorf` call site of the sources (its format string is quoted next to
  it) and keeps the arguments of the call, or for an error produced by code
  outside the repository sources.  A nil error is `none`.
* A function returning `(T, error)` whose every `return` has exactly one of the
  two set is an `Except Error T`; where both can be nil a pair of options is
  used.
* A method that mutates its receiver or an argument returns the new state.
-/

set_option autoImplicit false

namespace CDI

/-- Byte strings (`[]byte`). -/
abbrev Bytes := List Nat

/-- Errors of the embedded code.  The comment after each constructor quotes the
call site it stands for. -/
inductive Error where
  /-- An error value produced by code that is not part of the sources. -/
  | external (msg : String)
  /-- An error of the `os` package; `notExist` is what `os.IsNotExist` reports. -/
  | os (notExist : Bool) (msg : String)
  /-- The merge engine was given a nil target with a non-nil Edit Set. -/
  | nilSpec
  /-- Format `invalid version %q`. -/
  | invalidVersion (version : String)
  /-- Format `could not determine minimum required version: %v`. -/
  | minimumVersion (err : Error)
  /-- Format `the spec version must be at least v%v`. -/
  | versionTooLow (minVersion : String)
  /-- Format `failed add device %q: %w`. -/
  | failedAddDevice (name : String) (err : Error)
  /-- Format `invalid spec, multiple device %q`. -/
  | multipleDevice (name : String)
  /-- Format `invalid device, empty device edits`. -/
  | emptyDeviceEdits
  /-- Format `invalid device %q: %w`. -/
  | invalidDevice (name : String) (err : Error)
  /-- Format `failed to read CDI Spec: %q: %w`. -/
  | failedToRead (path : String) (err : Error)
  /-- Format `failed to read CDI Spec: %q: no Spec data`. -/
  | noSpecData (path : String)
  /-- Format `invalid CDI Spec: %w`. -/
  | invalidCDISpec (err : Error)
  /-- Format `failed to unmarshal CDI Spec: %w`. -/
  | failedToUnmarshal (err : Error)
  /-- Format `Spec validation failed: %w`. -/
  | specValidationFailed (err : Error)
  /-- Format `failed to create Spec dir: %w`. -/
  | failedCreateSpecDir (err : Error)
  /-- Format `failed to create Spec file: %w`. -/
  | failedCreateSpecFile (err : Error)
  /-- Format `failed to write Spec file: %w`. -/
  | failedWriteSpecFile (err : Error)
  deriving DecidableEq, Repr

/-! ## `specs-go/config.go`: the raw document -/

namespace specs

/-- The constant `CurrentVersion`. -/
def CurrentVersion : String := "0.6.0"

/-- The struct `DeviceNode`. -/
structure DeviceNode where
  Path : String := ""
  HostPath : String := ""
  Major : Int := 0
  Minor : Int := 0
  FileMode : Option Nat := none
  UID : Option Nat := none
  GID : Option Nat := none
  Typ : String := ""
  Permissions : String := ""
  deriving DecidableEq, Repr

/-- The struct `Mount`. -/
structure Mount where
  HostPath : String := ""
  ContainerPath : String := ""
  Options : List String := []
  Typ : String := ""
  deriving DecidableEq, Repr

/-- The struct `Hook`. -/
structure Hook where
  HookName : String := ""
  Path : String := ""
  Args : List String := []
  Env : List String := []
  Timeout : Option Int := none
  deriving DecidableEq, Repr

/-- The struct `ContainerEdits`: the Edit Set. -/
structure ContainerEdits where
  Env : List String := []
  DeviceNodes : List DeviceNode := []
  Hooks : List Hook := []
  Mounts : List Mount := []
  deriving DecidableEq, Repr

/-- The struct `Device`. -/
structure Device where
  Name : String := ""
  Annotations : List (String × String) := []
  ContainerEdits : ContainerEdits := {}
  deriving DecidableEq, Repr

/-- The struct `Spec`: one raw descriptor document. -/
structure Spec where
  Version : String := ""
  Kind : String := ""
  Annotations : List (String × String) := []
  Devices : List Device := []
  ContainerEdits : ContainerEdits := {}
  deriving DecidableEq, Repr

end specs

/-! ## The target runtime configuration

The types of `github.com/opencontainers/runtime-spec/specs-go`, restricted to
the collections the merge engine appends to. -/

namespace oci

/-- The struct `Process`, restricted to the environment. -/
structure Process where
  Env : List String := []
  deriving DecidableEq, Repr

/-- The struct `LinuxDevice`: a platform device-node entry. -/
structure LinuxDevice where
  Path : String := ""
  Typ : String := ""
  Major : Int := 0
  Minor : Int := 0
  Permissions : String := ""
  FileMode : Option Nat := none
  UID : Option Nat := none
  GID : Option Nat := none
  deriving DecidableEq, Repr

/-- The struct `Linux`, restricted to the device list. -/
structure Linux where
  Devices : List LinuxDevice := []
  deriving DecidableEq, Repr

/-- The struct `Mount`: a bind-mount entry. -/
structure Mount where
  Destination : String := ""
  Typ : String := ""
  Source : String := ""
  Options : List String := []
  deriving DecidableEq, Repr

/-- The struct `Hook`. -/
structure Hook where
  Path : String := ""
  Args : List String := []
  Env : List String := []
  Timeout : Option Int := none
  deriving DecidableEq, Repr

/-- The struct `Hooks`: one hook list per lifecycle phase. -/
structure Hooks where
  Prestart : List Hook := []
  CreateRuntime : List Hook := []
  CreateContainer : List Hook := []
  StartContainer : List Hook := []
  Poststart : List Hook := []
  Poststop : List Hook := []
  deriving DecidableEq, Repr

/-- The struct `Spec`: the target configuration. -/
structure Spec where
  Process : Option Process := none
  Mounts : List Mount := []
  Hooks : Option Hooks := none
  Linux : Option Linux := none
  deriving DecidableEq, Repr

end oci

/-! ## `pkg/cdi/container-edits.go`: hook names -/

/-- The constant `PrestartHook`. -/
def PrestartHook : String := "prestart"
/-- The constant `CreateRuntimeHook`. -/
def CreateRuntimeHook : String := "createRuntime"
/-- The constant `CreateContainerHook`. -/
def CreateContainerHook : String := "createContainer"
/-- The constant `StartContainerHook`. -/
def StartContainerHook : String := "startContainer"
/-- The constant `PoststartHook`. -/
def PoststartHook : String := "poststart"
/-- The constant `PoststopHook`. -/
def PoststopHook : String := "poststop"

/-- The table `validHookNames` (a `map[string]struct{}`, kept as its key list). -/
def validHookNames : List String :=
  [PrestartHook, CreateRuntimeHook, CreateContainerHook, StartContainerHook,
   PoststartHook, PoststopHook]

/-! ## The Edits Merge Engine

`ApplyEditsToOCISpec` (package `specs`) is exercised by
`specs-go/oce_test.go` but its body is not among the sources. -/

namespace specs

/-- Modelled from the spec: the method `DeviceNode.ToOCI`, which is missing from the
sources.  "each descriptor is translated into a platform device-node entry (path,
type, major/minor, permissions, file mode, uid/gid)". -/
def DeviceNode.ToOCI (d : DeviceNode) : oci.LinuxDevice :=
  { Path := d.Path, Typ := d.Typ, Major := d.Major, Minor := d.Minor,
    Permissions := d.Permissions, FileMode := d.FileMode, UID := d.UID, GID := d.GID }

/-- Modelled from the spec: the method `Mount.ToOCI`, which is missing from the
sources.  "each descriptor is translated into a bind-mount entry (source = host
path, destination = container path, type, options)". -/
def Mount.ToOCI (m : Mount) : oci.Mount :=
  { Source := m.HostPath, Destination := m.ContainerPath, Typ := m.Typ, Options := m.Options }

/-- Modelled from the spec: the method `Hook.ToOCI`, which is missing from the
sources.  A hook descriptor carries "executable path, arguments, environment,
optional timeout" besides its name. -/
def Hook.ToOCI (h : Hook) : oci.Hook :=
  { Path := h.Path, Args := h.Args, Env := h.Env, Timeout := h.Timeout }

/-- Modelled from the spec: the env step of the missing `ApplyEditsToOCISpec`.
"env: appended to the target's existing process environment, preserving
declaration order; no deduplication".  The process section is only created when
there is something to append: the test case "add devices nodes to the empty
spec" expects a result whose `Process` is still nil. -/
def applyEnv (config : oci.Spec) (env : List String) : oci.Spec :=
  if env.isEmpty then config
  else
    let p : oci.Process := config.Process.getD {}
    { config with Process := some { p with Env := p.Env ++ env } }

/-- Modelled from the spec: the deviceNodes step of the missing
`ApplyEditsToOCISpec`.  Each descriptor is translated "and appended to the
target's device list".  The test case "add env to the empty spec" expects a
result whose `Linux` is still nil, so the section is created by the first
descriptor. -/
def applyDeviceNodes (config : oci.Spec) : List DeviceNode → oci.Spec
  | [] => config
  | d :: ds =>
    let l : oci.Linux := config.Linux.getD {}
    applyDeviceNodes { config with Linux := some { l with Devices := l.Devices ++ [d.ToOCI] } } ds

/-- Modelled from the spec: the mounts step of the missing `ApplyEditsToOCISpec`.
Each descriptor is translated "and appended, preserving order". -/
def applyMounts (config : oci.Spec) : List Mount → oci.Spec
  | [] => config
  | m :: ms => applyMounts { config with Mounts := config.Mounts ++ [m.ToOCI] } ms

/-- Modelled from the spec: appending one hook "to the target's hook list under the
hook name's corresponding phase".  The six phases are those of the table
`validHookNames`; a name outside it has no corresponding phase and the list
structure is returned as it is ("unknown hook names must already have been
rejected during validation, so the merge step trusts the name"). -/
def appendHook (hs : oci.Hooks) (h : Hook) : oci.Hooks :=
  if h.HookName = PrestartHook then { hs with Prestart := hs.Prestart ++ [h.ToOCI] }
  else if h.HookName = CreateRuntimeHook then { hs with CreateRuntime := hs.CreateRuntime ++ [h.ToOCI] }
  else if h.HookName = CreateContainerHook then { hs with CreateContainer := hs.CreateContainer ++ [h.ToOCI] }
  else if h.HookName = StartContainerHook then { hs with StartContainer := hs.StartContainer ++ [h.ToOCI] }
  else if h.HookName = PoststartHook then { hs with Poststart := hs.Poststart ++ [h.ToOCI] }
  else if h.HookName = PoststopHook then { hs with Poststop := hs.Poststop ++ [h.ToOCI] }
  else hs

/-- Modelled from the spec: the hooks step of the missing `ApplyEditsToOCISpec`.
The test cases expect a result whose `Hooks` is still nil when the Edit Set has
no hook, so the section is created by the first descriptor. -/
def applyHooks (config : oci.Spec) : List Hook → oci.Spec
  | [] => config
  | h :: hs =>
    applyHooks { config with Hooks := some (appendHook (config.Hooks.getD {}) h) } hs

/-- Modelled from the spec: the function `ApplyEditsToOCISpec(config, edits)`,
whose body is missing from the sources (section 4.6, Edits Merge Engine).  The
result is the target after the call and the error returned.

The two nil checks follow the words of the spec: "A nil Edit Set is always a
no-op and never an error", and "a nil target configuration passed with a
non-nil Edit Set is a hard error".  (The first row of the test table below,
"nil spec", passes a nil target with a nil Edit Set and expects an error; the
spec does not give one, and the model follows the spec.) -/
def ApplyEditsToOCISpec (config : Option oci.Spec) (edits : Option ContainerEdits) :
    Option oci.Spec × Option Error :=
  match edits with
  | none => (config, none)
  | some e =>
    match config with
    | none => (none, some Error.nilSpec)
    | some c =>
      (some (applyHooks (applyMounts (applyDeviceNodes (applyEnv c e.Env) e.DeviceNodes) e.Mounts) e.Hooks),
       none)

/-! ### `specs-go/oce_test.go` -/

/-- The anonymous struct of the test table in `TestApplyEditsToOCISpec`. -/
structure TestCase where
  name : String
  config : Option oci.Spec := none
  edits : Option ContainerEdits := none
  expectedResult : oci.Spec := {}
  expectedError : Bool := false
  deriving DecidableEq, Repr

/-- The table `testCases` of `TestApplyEditsToOCISpec`. -/
def testCases : List TestCase :=
  [ { name := "nil spec", expectedError := true },
    { name := "nil edits", config := some {}, edits := none },
    { name := "add env to the empty spec", config := some {},
      edits := some { Env := ["BAR=BARVALUE1"] },
      expectedResult := { Process := some { Env := ["BAR=BARVALUE1"] } } },
    { name := "add devices nodes to the empty spec", config := some {},
      edits := some { DeviceNodes := [{ Path := "/dev/vendorct1" }] },
      expectedResult := { Linux := some { Devices := [{ Path := "/dev/vendorct1" }] } } },
    { name := "add mounts to the empty spec", config := some {},
      edits := some { Mounts := [{ HostPath := "/dev/vendorct1", ContainerPath := "/dev/vendorct1" }] },
      expectedResult := { Mounts := [{ Source := "/dev/vendorct1", Destination := "/dev/vendorct1" }] } } ]

/-- The body of the subtest run for each case, for an implementation `apply` of
the function under test: `require.Error` when an error is expected, otherwise
`require.NoError` and, when the Edit Set is not nil, `require.Equal` of the
expected result and the target. -/
def runTestCase (apply : Option oci.Spec → Option ContainerEdits → Option oci.Spec × Option Error)
    (tc : TestCase) : Bool :=
  let r := apply tc.config tc.edits
  if tc.expectedError then r.2.isSome
  else
    r.2.isNone && (if tc.edits.isSome then decide (r.1 = some tc.expectedResult) else true)

end specs

/-! ## Helpers the sources call but do not define -/

/-- A Go `map[string]T`. -/
abbrev Map (α : Type) := List (String × α)

/-- The map read `m[k]`, with the `ok` flag as the option. -/
def Map.get {α : Type} (m : Map α) (k : String) : Option α := List.lookup k m

/-- The map write `m[k] = v`. -/
def Map.set {α : Type} (m : Map α) (k : String) (v : α) : Map α :=
  m.filter (fun p => !(p.1 == k)) ++ [(k, v)]

/-- The functions, tables and variables that `pkg/cdi/spec.go` and
`schema/pkg/cdi/device.go` use but whose definitions are not among the sources.
They are parameters of the embedding: every theorem below holds for whatever
they compute. -/
structure Deps where
  /-- The method `validSpecVersions.isValidVersion`. -/
  isValidVersion : String → Bool
  /-- The function `MinimumRequiredVersion`. -/
  MinimumRequiredVersion : specs.Spec → Except Error String
  /-- The test `newVersion(a).IsGreaterThan(newVersion(b))` on two version tokens. -/
  IsGreaterThan : String → String → Bool
  /-- The function `ValidateVendorName`. -/
  ValidateVendorName : String → Option Error
  /-- The function `ValidateClassName`. -/
  ValidateClassName : String → Option Error
  /-- The function `ValidateSpecAnnotations` of package `cdi`. -/
  ValidateSpecAnnotations : String → List (String × String) → Option Error
  /-- The function `validation.ValidateSpecAnnotations`. -/
  validationValidateSpecAnnotations : String → List (String × String) → Option Error
  /-- The function `ValidateDeviceName`. -/
  ValidateDeviceName : String → Option Error
  /-- The method `ContainerEdits.Validate`, on the wrapped Edit Set. -/
  Validate : specs.ContainerEdits → Option Error
  /-- The function `ParserQualifier`, splitting a kind into vendor and class. -/
  ParserQualifier : String → String × String
  /-- The function `ValidateSpec` called first by `newSpec`. -/
  ValidateSpec : specs.Spec → Option Error
  /-- The package variable `specValidator`, nil until `SetSpecValidator` sets it. -/
  specValidator : Option (specs.Spec → Option Error)
  /-- The library function `yaml.Unmarshal` into a `*cdi.Spec`: an error, or the
  pointer it leaves in `raw` (nil when the data holds no document). -/
  yamlUnmarshal : Bytes → Except Error (Option specs.Spec)
  /-- The library function `yaml.Marshal` on a raw Spec. -/
  yamlMarshal : specs.Spec → Except Error Bytes
  /-- The library function `json.Marshal` on a raw Spec. -/
  jsonMarshal : specs.Spec → Except Error Bytes
  /-- The library function `ioutil.ReadFile`: the data and the error. -/
  ReadFile : String → Bytes × Option Error
  /-- The library function `filepath.Clean`. -/
  Clean : String → String
  /-- The library function `filepath.Dir`. -/
  Dir : String → String
  /-- The library function `filepath.Base`. -/
  Base : String → String

/-- The scan of `filepath.Ext`, from the last character backwards: `rev` is what
is left to scan (reversed) and `suffix` what has been passed. -/
def extScan : List Char → List Char → List Char
  | [], _ => []
  | c :: rev, suffix =>
    if c = '/' then []
    else if c = '.' then '.' :: suffix
    else extScan rev (c :: suffix)

/-- The library function `filepath.Ext`: "the suffix beginning at the final dot in
the final element of path; it is empty if there is no dot". -/
def Ext (path : String) : String := ⟨extScan path.data.reverse []⟩

/-- The library function `os.IsNotExist`. -/
def IsNotExist : Option Error → Bool
  | some (Error.os notExist _) => notExist
  | _ => false

/-- Modelled from the spec: the function `parser.QualifiedName`, which is missing
from the sources.  "qualified name = vendor/class=name". -/
def QualifiedName (vendor cls name : String) : String :=
  vendor ++ "/" ++ cls ++ "=" ++ name

/-! ## `pkg/cdi/container-edits.go` -/

/-- The struct `ContainerEdits` of package `cdi`, wrapping `*specs.ContainerEdits`.
The wrapped pointer is never nil: the sources build the wrapper only in the two
`edits()` methods, from the address of a struct field. -/
structure ContainerEdits where
  /-- The embedded `*specs.ContainerEdits`. -/
  raw : specs.ContainerEdits
  deriving DecidableEq, Repr

/-- Modelled from the spec: the method `ContainerEdits.isEmpty`, which is missing
from the sources.  "an Edit Set is empty iff all four sequences are empty". -/
def ContainerEdits.isEmpty (e : ContainerEdits) : Bool :=
  e.raw.Env.isEmpty && e.raw.DeviceNodes.isEmpty &&
    e.raw.Hooks.isEmpty && e.raw.Mounts.isEmpty

/-- Modelled from the spec: the method `ContainerEdits.Apply`, which is missing
from the sources.  "delegates to the Edits Merge Engine"; a nil receiver is a
nil Edit Set. -/
def ContainerEdits.Apply (e : Option ContainerEdits) (ociSpec : Option oci.Spec) :
    Option oci.Spec × Option Error :=
  specs.ApplyEditsToOCISpec ociSpec (e.map (fun w => w.raw))

/-! ## `pkg/cdi/spec.go` and `schema/pkg/cdi/device.go`: the types -/

/-- The constant `defaultSpecExt`. -/
def defaultSpecExt : String := ".yaml"

/-- The fields of the struct `Spec` of package `cdi` other than its device map.
A Device's back-reference `spec *Spec` is modelled by these fields, which
identify the owner and are all that `Device` reads through it. -/
structure SpecCore where
  /-- The embedded `*cdi.Spec`. -/
  raw : specs.Spec
  vendor : String := ""
  /-- The field `class`. -/
  cls : String := ""
  path : String := ""
  priority : Int := 0
  deriving DecidableEq, Repr

/-- The struct `Device`: the embedded raw `*cdi.Device` and the owner. -/
structure Device where
  /-- The embedded `*cdi.Device`. -/
  raw : specs.Device
  /-- The field `spec`: the owner, nil when there is none. -/
  spec : Option SpecCore
  deriving DecidableEq, Repr

/-- The struct `Spec` of package `cdi`. -/
structure Spec extends SpecCore where
  devices : Map Device := []
  deriving DecidableEq, Repr

/-- The method `Spec.GetVendor`. -/
def SpecCore.GetVendor (s : SpecCore) : String := s.vendor

/-- The method `Spec.GetClass`. -/
def SpecCore.GetClass (s : SpecCore) : String := s.cls

/-- The method `Spec.GetDevice`: nil when the map has no such key. -/
def Spec.GetDevice (s : Spec) (name : String) : Option Device := s.devices.get name

/-- The method `Spec.GetPath`. -/
def Spec.GetPath (s : Spec) : String := s.path

/-- The method `Spec.GetPriority`. -/
def Spec.GetPriority (s : Spec) : Int := s.priority

/-- The method `Spec.edits`. -/
def Spec.edits (s : Spec) : ContainerEdits := ⟨s.raw.ContainerEdits⟩

/-- The function `GenerateSpecName`. -/
def GenerateSpecName (vendor cls : String) : String := vendor ++ "-" ++ cls

/-! ## `schema/pkg/cdi/device.go` -/

/-- The method `Device.GetSpec`. -/
def Device.GetSpec (d : Device) : Option SpecCore := d.spec

/-- The method `Device.GetQualifiedName`; `none` is the nil dereference of a Device
without owner. -/
def Device.GetQualifiedName (d : Device) : Option String :=
  d.spec.map (fun s => QualifiedName s.GetVendor s.GetClass d.raw.Name)

/-- The method `Device.edits`. -/
def Device.edits (d : Device) : ContainerEdits := ⟨d.raw.ContainerEdits⟩

/-- The method `Device.validate`. -/
def Device.validate (deps : Deps) (d : Device) : Option Error :=
  match deps.ValidateDeviceName d.raw.Name with
  | some err => some err
  | none =>
    let name : String :=
      match d.spec with
      | none => d.raw.Name
      | some s => QualifiedName s.GetVendor s.GetClass d.raw.Name
    match deps.validationValidateSpecAnnotations name d.raw.Annotations with
    | some err => some err
    | none =>
      let edits := d.edits
      if edits.isEmpty then some Error.emptyDeviceEdits
      else
        match deps.Validate edits.raw with
        | some err => some (Error.invalidDevice d.raw.Name err)
        | none => none

/-- The function `newDevice(spec, d)`.  (The call in `Spec.validate` lists the two
arguments in the other order.) -/
def newDevice (deps : Deps) (spec : Option SpecCore) (d : specs.Device) : Except Error Device :=
  let dev : Device := { raw := d, spec := spec }
  match dev.validate deps with
  | some err => Except.error err
  | none => Except.ok dev

/-! ## `pkg/cdi/spec.go` -/

/-- The function `validateVersion`. -/
def validateVersion (deps : Deps) (version : String) : Option Error :=
  if !deps.isValidVersion version then some (Error.invalidVersion version) else none

/-- The device loop of `Spec.validate`: `devices` is the map built so far and the
list is what is left of `s.Devices`. -/
def Spec.validateDevices (deps : Deps) (s : Spec) : List specs.Device → Map Device → Except Error (Map Device)
  | [], devices => Except.ok devices
  | d :: rest, devices =>
    match newDevice deps (some s.toSpecCore) d with
    | Except.error err => Except.error (Error.failedAddDevice d.Name err)
    | Except.ok dev =>
      if (devices.get dev.raw.Name).isSome then Except.error (Error.multipleDevice d.Name)
      else Spec.validateDevices deps s rest (devices.set d.Name dev)

/-- The method `Spec.validate`. -/
def Spec.validate (deps : Deps) (s : Spec) : Except Error (Map Device) :=
  match validateVersion deps s.raw.Version with
  | some err => Except.error err
  | none =>
    match deps.MinimumRequiredVersion s.raw with
    | Except.error err => Except.error (Error.minimumVersion err)
    | Except.ok minVersion =>
      if deps.IsGreaterThan minVersion s.raw.Version then Except.error (Error.versionTooLow minVersion)
      else
        match deps.ValidateVendorName s.vendor with
        | some err => Except.error err
        | none =>
          match deps.ValidateClassName s.cls with
          | some err => Except.error err
          | none =>
            match deps.ValidateSpecAnnotations s.raw.Kind s.raw.Annotations with
            | some err => Except.error err
            | none =>
              match deps.Validate s.edits.raw with
              | some err => Except.error err
              | none => Spec.validateDevices deps s s.raw.Devices []

/-- The function `ParseSpec`. -/
def ParseSpec (deps : Deps) (data : Bytes) : Except Error (Option specs.Spec) :=
  match deps.yamlUnmarshal data with
  | Except.error err => Except.error (Error.failedToUnmarshal err)
  | Except.ok raw => Except.ok raw

/-- The function `SetSpecValidator`. -/
def SetSpecValidator (deps : Deps) (fn : Option (specs.Spec → Option Error)) : Deps :=
  { deps with specValidator := fn }

/-- The function `validateSpec`, using the external validator. -/
def validateSpec (deps : Deps) (raw : specs.Spec) : Option Error :=
  match deps.specValidator with
  | none => none
  | some fn =>
    match fn raw with
    | some err => some (Error.specValidationFailed err)
    | none => none

/-- The function `newSpec`, for a non-nil `raw`. -/
def newSpec (deps : Deps) (raw : specs.Spec) (path : String) (priority : Int) : Except Error Spec :=
  match deps.ValidateSpec raw with
  | some err => Except.error err
  | none =>
    let spec : Spec := { raw := raw, path := deps.Clean path, priority := priority }
    let spec : Spec :=
      if Ext spec.path ≠ ".yaml" ∧ Ext spec.path ≠ ".json" then
        { spec with path := spec.path ++ defaultSpecExt }
      else spec
    let vc := deps.ParserQualifier spec.raw.Kind
    let spec : Spec := { spec with vendor := vc.1, cls := vc.2 }
    match spec.validate deps with
    | Except.error err => Except.error (Error.invalidCDISpec err)
    | Except.ok devices => Except.ok { spec with devices := devices }

/-- The function `ReadSpec`: the Spec and the error it returns. -/
def ReadSpec (deps : Deps) (path : String) (priority : Int) : Option Spec × Option Error :=
  let (data, err) := deps.ReadFile path
  if IsNotExist err then (none, none)
  else
    match err with
    | some err => (none, some (Error.failedToRead path err))
    | none =>
      match ParseSpec deps data with
      | Except.error err => (none, some (Error.failedToRead path err))
      | Except.ok none => (none, some (Error.noSpecData path))
      | Except.ok (some raw) =>
        match newSpec deps raw path priority with
        | Except.error err => (none, some err)
        | Except.ok spec => (some spec, none)

/-! ## The file system seen by `Spec.write`

`write` creates a temporary file in the directory of the Spec, writes to it and
renames it.  The state is the list of files, each under its directory and base
name; what the system answers to each call of one run is recorded in `Sys`. -/

/-- One file: its directory, its base name and its content. -/
structure File where
  dir : String
  name : String
  data : Bytes
  deriving DecidableEq, Repr

/-- The file system state. -/
abbrev FS := List File

/-- The content of the file `name` of directory `dir`, if there is one. -/
def FS.read (fs : FS) (dir name : String) : Option Bytes :=
  (fs.find? (fun f => f.dir == dir && f.name == name)).map (fun f => f.data)

/-- Whether directory `dir` has a file `name`. -/
def FS.has (fs : FS) (dir name : String) : Bool := (fs.read dir name).isSome

/-- The state without the file `name` of directory `dir`. -/
def FS.remove (fs : FS) (dir name : String) : FS :=
  fs.filter (fun f => !(f.dir == dir && f.name == name))

/-- The state in which the file `name` of directory `dir` has content `data`. -/
def FS.put (fs : FS) (dir name : String) (data : Bytes) : FS :=
  { dir := dir, name := name, data := data } :: fs.remove dir name

/-- The answers of the system during one run of `write`. -/
structure Sys where
  /-- The error of `os.MkdirAll`, if it fails. -/
  mkdirAll : Option Error := none
  /-- The error of `os.CreateTemp`, if it fails. -/
  createTemp : Option Error := none
  /-- The random part that `os.CreateTemp` puts in place of the `*` of its pattern. -/
  random : String := "0"
  /-- When `tmp.Write` fails: how many bytes had been written, and the error. -/
  write : Option (Nat × Error) := none
  /-- The error of `renameIn`, if it fails. -/
  rename : Option Error := none
  deriving Repr

/-- The library function `os.MkdirAll`: directories are not tracked, so the call
only succeeds or fails. -/
def MkdirAll (sys : Sys) (fs : FS) (_dir : String) : FS × Option Error := (fs, sys.mkdirAll)

/-- The library function `os.CreateTemp(dir, "spec.*.tmp")`: creates a new, empty
file in `dir` and returns its base name; the name must be unused. -/
def CreateTemp (sys : Sys) (fs : FS) (dir : String) : FS × Except Error String :=
  match sys.createTemp with
  | some err => (fs, Except.error err)
  | none =>
    let name := "spec." ++ sys.random ++ ".tmp"
    if fs.has dir name then (fs, Except.error (Error.os false "file exists"))
    else (fs.put dir name [], Except.ok name)

/-- The library method `tmp.Write(data)` on the temporary file, followed by
`tmp.Close()`: a failed write leaves the file with the bytes written so far. -/
def tmpWrite (sys : Sys) (fs : FS) (dir name : String) (data : Bytes) : FS × Option Error :=
  match sys.write with
  | some (n, err) => (fs.put dir name (data.take n), some err)
  | none => (fs.put dir name data, none)

/-- Modelled from the spec: the function `renameIn(dir, src, dst, overwrite)`, which
is missing from the sources.  "an atomic rename into place": on failure nothing
changes, on success `dst` has the content of `src` and `src` is gone. -/
def renameIn (sys : Sys) (fs : FS) (dir src dst : String) : FS × Option Error :=
  match sys.rename with
  | some err => (fs, some err)
  | none =>
    match fs.read dir src with
    | none => (fs, some (Error.os true "no such file or directory"))
    | some data => ((fs.remove dir src).put dir dst data, none)

/-- The bytes of `[]byte("--\n")`, the literal that `write` puts in front of the
YAML data. -/
def yamlPrefix : Bytes := [45, 45, 10]

/-- The YAML document separator line: the bytes of `---` and a newline. -/
def yamlDocumentSeparator : Bytes := [45, 45, 45, 10]

/-- The encoding step of `Spec.write`: the data to persist, or the marshalling
error. -/
def Spec.encode (deps : Deps) (s : Spec) : Except Error Bytes :=
  if Ext s.path = ".yaml" then
    match deps.yamlMarshal s.raw with
    | Except.error err => Except.error err
    | Except.ok data => Except.ok (yamlPrefix ++ data)
  else deps.jsonMarshal s.raw

/-- The method `Spec.write`: the file system after the call and the error
returned.  `filepath.Base(tmp.Name())` is the base name `os.CreateTemp` chose and
`os.Remove(tmp.Name())` removes that file of `dir`. -/
def Spec.write (deps : Deps) (sys : Sys) (s : Spec) (fs : FS) : FS × Option Error :=
  match validateSpec deps s.raw with
  | some err => (fs, some err)
  | none =>
    match s.encode deps with
    | Except.error err => (fs, some (Error.failedCreateSpecDir err))
    | Except.ok data =>
      let dir := deps.Dir s.path
      match MkdirAll sys fs dir with
      | (fs, some err) => (fs, some (Error.failedCreateSpecDir err))
      | (fs, none) =>
        match CreateTemp sys fs dir with
        | (fs, Except.error err) => (fs, some (Error.failedCreateSpecFile err))
        | (fs, Except.ok tmp) =>
          match tmpWrite sys fs dir tmp data with
          | (fs, some err) => (fs, some (Error.failedWriteSpecFile err))
          | (fs, none) =>
            match renameIn sys fs dir tmp (deps.Base s.path) with
            | (fs, some err) => (fs.remove dir tmp, some (Error.failedWriteSpecFile err))
            | (fs, none) => (fs, none)

/-! ## A reference instance of the missing helpers

Used only where a statement is evaluated on a concrete document. -/

/-- Splits a character list at each dot: `cur` is the component being read
(reversed). -/
def splitDots : List Char → List Char → List (List Char)
  | [], cur => [cur.reverse]
  | c :: cs, cur => if c = '.' then cur.reverse :: splitDots cs [] else splitDots cs (c :: cur)

/-- The number written by a list of decimal digits. -/
def digitsValue (cs : List Char) : Nat := cs.foldl (fun n c => 10 * n + (c.toNat - 48)) 0

/-- Whether a component is a non-empty list of decimal digits. -/
def isNumber (cs : List Char) : Bool := !cs.isEmpty && cs.all (fun c => 48 ≤ c.toNat && c.toNat ≤ 57)

/-- Modelled from the spec: the version token, "a three-component ordered value
(major.minor.patch-like)"; an "unrecognized" version is one that is not of this
form.  (The table `validSpecVersions` is missing from the sources.) -/
def isVersionToken (v : String) : Bool :=
  let parts := splitDots v.data []
  parts.length == 3 && parts.all isNumber

/-- Modelled from the spec: the order of version tokens, "component-wise numeric
comparison, left to right"; `true` when the first list is greater.  (The method
`IsGreaterThan` is missing from the sources.) -/
def partsGreater : List Nat → List Nat → Bool
  | a :: as, b :: bs => decide (b < a) || (a == b && partsGreater as bs)
  | _ :: _, [] => true
  | [], _ => false

/-- Modelled from the spec: `newVersion(a).IsGreaterThan(newVersion(b))`. -/
def versionGreater (a b : String) : Bool :=
  partsGreater ((splitDots a.data []).map digitsValue) ((splitDots b.data []).map digitsValue)

/-- Modelled from the spec: the name grammar shared by vendor, class and device
names, "alphanumerics, `-`, `_`, `.`", on a non-empty name.  (The functions
`ValidateVendorName`, `ValidateClassName` and `ValidateDeviceName` are missing
from the sources; the length bound is not given by the spec and is left out.) -/
def isName (name : String) : Bool :=
  !name.data.isEmpty &&
    name.data.all (fun c =>
      (48 ≤ c.toNat && c.toNat ≤ 57) || (65 ≤ c.toNat && c.toNat ≤ 90) ||
      (97 ≤ c.toNat && c.toNat ≤ 122) || c = '-' || c = '_' || c = '.')

/-- Modelled from the spec: the annotation check, reduced to "annotation key
grammar" as non-empty keys.  (Both `ValidateSpecAnnotations` functions are
missing from the sources; the size bound is not given by the spec.) -/
def checkAnnotations (_subject : String) (annotations : List (String × String)) : Option Error :=
  if annotations.all (fun kv => !kv.1.data.isEmpty) then none
  else some (Error.external "invalid annotation key")

/-- Modelled from the spec: the method `ContainerEdits.Validate`, which is missing
from the sources.  "hook name must be one of the six enumerated lifecycle hooks;
unrecognized names fail with an UnsupportedHookError"; the names are those of the
table `validHookNames`. -/
def checkEdits (e : specs.ContainerEdits) : Option Error :=
  match e.Hooks.find? (fun h => !validHookNames.contains h.HookName) with
  | some h => some (Error.external ("unsupported hook " ++ h.HookName))
  | none => none

/-- Splits a kind at its first slash: `cur` is the vendor being read (reversed). -/
def splitKind : List Char → List Char → String × String
  | [], cur => ("", String.mk cur.reverse)
  | c :: cs, cur => if c = '/' then (String.mk cur.reverse, String.mk cs) else splitKind cs (c :: cur)

/-- The bytes of an ASCII string. -/
def bytesOf (s : String) : Bytes := s.data.map Char.toNat

/-- Modelled from the spec: one implementation of the helpers that are missing
from the sources, as far as the spec describes them: a version token has three
numeric components and tokens are compared component-wise; the feature set of
every document is taken to be that of version 0.1.0; names follow the name
grammar; a kind is `vendor/class`; an Edit Set is valid when its hook names are
recognised; there is no external validator.  The library calls are those of a
run in which paths are clean file names of the current directory, reading
finds no file, parsing finds no document, and marshalling writes the version
and kind of the document only. -/
def referenceDeps : Deps where
  isValidVersion := isVersionToken
  MinimumRequiredVersion := fun _ => Except.ok "0.1.0"
  IsGreaterThan := versionGreater
  ValidateVendorName := fun n => if isName n then none else some (Error.external "invalid vendor")
  ValidateClassName := fun n => if isName n then none else some (Error.external "invalid class")
  ValidateSpecAnnotations := checkAnnotations
  validationValidateSpecAnnotations := checkAnnotations
  ValidateDeviceName := fun n => if isName n then none else some (Error.external "invalid device name")
  Validate := checkEdits
  ParserQualifier := fun kind => splitKind kind.data []
  ValidateSpec := fun _ => none
  specValidator := none
  yamlUnmarshal := fun _ => Except.ok none
  yamlMarshal := fun raw =>
    Except.ok (bytesOf ("cdiVersion: " ++ raw.Version ++ "\nkind: " ++ raw.Kind ++ "\n"))
  jsonMarshal := fun raw =>
    Except.ok (bytesOf ("\x7b\"cdiVersion\":\"" ++ raw.Version ++ "\",\"kind\":\"" ++ raw.Kind ++ "\"\x7d"))
  ReadFile := fun _ => ([], some (Error.os true "no such file or directory"))
  Clean := fun p => p
  Dir := fun _ => "."
  Base := fun p => p

/-! ## Observations on a target configuration -/

/-- The process environment of a target. -/
def oci.Spec.env (c : oci.Spec) : List String :=
  match c.Process with
  | some p => p.Env
  | none => []

/-- The device-node list of a target. -/
def oci.Spec.devices (c : oci.Spec) : List oci.LinuxDevice :=
  match c.Linux with
  | some l => l.Devices
  | none => []

/-- The error of a result, nil on success. -/
def errorOf {α : Type} : Except Error α → Option Error
  | Except.error err => some err
  | Except.ok _ => none

/-- The first error of a list of checks, in the order of the list. -/
def firstError : List (Option Error) → Option Error
  | [] => none
  | some err :: _ => some err
  | none :: rest => firstError rest

/-- The minimum-required-version check of `Spec.validate`. -/
def Spec.minimumVersionCheck (deps : Deps) (s : Spec) : Option Error :=
  match deps.MinimumRequiredVersion s.raw with
  | Except.error err => some (Error.minimumVersion err)
  | Except.ok minVersion =>
    if deps.IsGreaterThan minVersion s.raw.Version then some (Error.versionTooLow minVersion) else none

/-- The checks that `Spec.validate` runs before it looks at the devices: version
token, minimum required version, vendor name, class name, spec annotations,
spec-level Edit Set. -/
def Spec.preChecks (deps : Deps) (s : Spec) : List (Option Error) :=
  [ validateVersion deps s.raw.Version,
    s.minimumVersionCheck deps,
    deps.ValidateVendorName s.vendor,
    deps.ValidateClassName s.cls,
    deps.ValidateSpecAnnotations s.raw.Kind s.raw.Annotations,
    deps.Validate s.edits.raw ]

/-- The construction check of one device: the error of `newDevice`, wrapped as
`Spec.validate` wraps it. -/
def Spec.constructionCheck (deps : Deps) (s : Spec) (d : specs.Device) : Option Error :=
  match newDevice deps (some s.toSpecCore) d with
  | Except.error err => some (Error.failedAddDevice d.Name err)
  | Except.ok _ => none

/-- The uniqueness check of one device against the devices listed before it. -/
def uniquenessCheck (seen : List specs.Device) (d : specs.Device) : Option Error :=
  if d.Name ∈ seen.map (fun x => x.Name) then some (Error.multipleDevice d.Name) else none

/-- The uniqueness checks of a device list, device by device; `seen` are the
devices listed before. -/
def uniquenessChecks : List specs.Device → List specs.Device → List (Option Error)
  | _, [] => []
  | seen, d :: rest => uniquenessCheck seen d :: uniquenessChecks (seen ++ [d]) rest

/-- The device checks in the order of the source loop: for each device in turn,
its construction and then its uniqueness against the devices before it. -/
def Spec.deviceChecks (deps : Deps) (s : Spec) : List specs.Device → List specs.Device → List (Option Error)
  | _, [] => []
  | seen, d :: rest =>
    s.constructionCheck deps d :: uniquenessCheck seen d :: Spec.deviceChecks deps s (seen ++ [d]) rest

/-- The checks of `Spec.validate` in the order of the source. -/
def Spec.checksInCodeOrder (deps : Deps) (s : Spec) : List (Option Error) :=
  s.preChecks deps ++ s.deviceChecks deps [] s.raw.Devices

/-- The checks of `Spec.validate` in the order the specification gives: the
construction of every device, and only then the uniqueness check across device
names. -/
def Spec.checksInSpecOrder (deps : Deps) (s : Spec) : List (Option Error) :=
  s.preChecks deps ++ s.raw.Devices.map (s.constructionCheck deps) ++ uniquenessChecks [] s.raw.Devices

/-- The conditions under which the specification says `Spec.validate` succeeds:
every device has a non-empty Edit Set, the device names are pairwise distinct,
the declared version is not below the minimum required version computed from
the document, and the name and annotation checks (vendor, class, device names,
spec and device annotations) pass. -/
def Spec.statedConditions (deps : Deps) (s : Spec) : Prop :=
  (∀ d ∈ s.raw.Devices, (ContainerEdits.mk d.ContainerEdits).isEmpty = false) ∧
  (s.raw.Devices.map (fun d => d.Name)).Nodup ∧
  s.minimumVersionCheck deps = none ∧
  deps.ValidateVendorName s.vendor = none ∧
  deps.ValidateClassName s.cls = none ∧
  (∀ d ∈ s.raw.Devices, deps.ValidateDeviceName d.Name = none) ∧
  deps.ValidateSpecAnnotations s.raw.Kind s.raw.Annotations = none ∧
  (∀ d ∈ s.raw.Devices,
    deps.validationValidateSpecAnnotations (QualifiedName s.vendor s.cls d.Name) d.Annotations = none)

/-! ## Example documents -/

/-- A Spec of kind `vendor.com/device`, version 0.6.0, with the given devices and
no spec-level edits, as `newSpec` builds it before validation. -/
def exampleSpec (devices : List specs.Device) : Spec :=
  { raw := { Version := "0.6.0", Kind := "vendor.com/device", Devices := devices },
    vendor := "vendor.com", cls := "device", path := "vendor.yaml" }

/-- A device with one environment entry. -/
def envDevice (name : String) : specs.Device :=
  { Name := name, ContainerEdits := { Env := ["BAR=BARVALUE1"] } }

/-- A device whose Edit Set is entirely empty. -/
def emptyDevice (name : String) : specs.Device := { Name := name }

/-- A device whose only edit is a hook named `bogusHook`. -/
def bogusHookDevice (name : String) : specs.Device :=
  { Name := name, ContainerEdits := { Hooks := [{ HookName := "bogusHook", Path := "/bin/hook" }] } }

/-! ## `schema/schema.go` -/

namespace schema

/-- A decoded document value, the Go `interface{}` that `yaml.Unmarshal` produces:
`null` is the nil interface, `obj` a `map[string]interface{}`, `arr` a
`[]interface{}`. -/
inductive Value where
  | null
  | bool (b : Bool)
  | num (n : Int)
  | str (s : String)
  | arr (items : List Value)
  | obj (fields : List (String × Value))

/-- A non-nil `map[string]interface{}`, as its key and value pairs. -/
abbrev Object := List (String × Value)

/-- The result of a schema validation (`gojsonschema.Result`): whether the
document is valid, and the error descriptions. -/
structure Result where
  valid : Bool
  errors : List String := []

/-- Values of the interface `error` in package `schema`.  Each constructor stands
for one call site of the sources, or for an error of code outside them. -/
inductive Err where
  /-- An error value produced by code that is not part of the sources. -/
  | external (msg : String)
  /-- Format `failed to YAML unmarshal data for validation: %w`. -/
  | yamlUnmarshal (err : Err)
  /-- Format `failed to JSON remarshal data for validation: %w`. -/
  | jsonRemarshal (err : Err)
  /-- Format `failed o load JSON data for validation: %w`. -/
  | loadJSON (err : Err)
  /-- The value `&Error{Result: docErr}` of the struct `Error`. -/
  | invalid (result : Result)
  /-- Format `failed to parse device: %w`. -/
  | parseDevice (err : Err)
  /-- Format `expected map[string]interface{} but got %F`. -/
  | notAMap (i : Value)

/-- The document loaders of `gojsonschema` that the sources build:
`NewBytesLoader(data)` and `NewReferenceLoader(uri)`. -/
inductive JSONLoader where
  | bytes (data : Bytes)
  | reference (uri : String)

/-- A compiled schema of `gojsonschema`, given by its method `Validate`: the
result for the document, or the error of loading it. -/
structure JSONSchema where
  Validate : JSONLoader → Except Err Result

/-- The struct `Schema`. -/
structure Schema where
  schema : Option JSONSchema

/-- The library functions and the function of package `validation` that
`ValidateData` and `validateContents` call. -/
structure Lib where
  /-- The library function `bytes.TrimSpace`. -/
  TrimSpace : Bytes → Bytes
  /-- The library function `yaml.Unmarshal` into a `map[string]interface{}`: an
  error, or the map it leaves in `any` (nil when the data holds no mapping). -/
  yamlUnmarshal : Bytes → Except Err (Option Object)
  /-- The library function `json.Marshal` on the map. -/
  jsonMarshal : Option Object → Except Err Bytes
  /-- The function `validation.ValidateSpecAnnotations`. -/
  ValidateSpecAnnotations : String → Object → Option Err

/-- The library function `bytes.HasPrefix`. -/
def HasPrefix (s pre : Bytes) : Bool := pre.isPrefixOf s

/-- The function `NopSchema`. -/
def NopSchema : Schema := { schema := none }

/-- The method `Schema.validate`; the receiver may be nil. -/
def Schema.validate (s : Option Schema) (doc : JSONLoader) : Option Err :=
  match s with
  | none => none
  | some s =>
    match s.schema with
    | none => none
    | some js =>
      match js.Validate doc with
      | Except.error jsonErr => some (Err.loadJSON jsonErr)
      | Except.ok docErr => if docErr.valid then none else some (Err.invalid docErr)

/-- The type `schemaContents`: a `map[string]interface{}` that may be nil. -/
abbrev schemaContents := Option Object

/-- The function `asSchemaContents`. -/
def asSchemaContents (i : Value) : Except Err schemaContents :=
  match i with
  | Value.null => Except.ok none
  | Value.obj c => Except.ok (some c)
  | other => Except.error (Err.notAMap other)

/-- The method `schemaContents.getFieldAsString`. -/
def getFieldAsString (c : schemaContents) (key : String) : String × Bool :=
  match c with
  | none => ("", false)
  | some m =>
    match List.lookup key m with
    | some (Value.str value) => (value, true)
    | _ => ("", false)

/-- The method `schemaContents.getAnnotations`: the map, and whether there is one. -/
def getAnnotations (c : schemaContents) : Option Object :=
  match c with
  | none => none
  | some m =>
    match List.lookup "annotations" m with
    | some (Value.obj annotations) => some annotations
    | _ => none

/-- The loop of `schemaContents.getDevices` over the entries of the device list. -/
def collectDevices : List Value → List schemaContents → Except Err (List schemaContents)
  | [], deviceContents => Except.ok deviceContents
  | device :: rest, deviceContents =>
    match asSchemaContents device with
    | Except.error err => Except.error (Err.parseDevice err)
    | Except.ok c => collectDevices rest (deviceContents ++ [c])

/-- The method `schemaContents.getDevices`. -/
def getDevices (c : schemaContents) : Except Err (List schemaContents) :=
  match c with
  | none => Except.ok []
  | some m =>
    match List.lookup "devices" m with
    | some (Value.arr devices) => collectDevices devices []
    | _ => Except.ok []

/-- The loop of `Schema.validateContents` over the devices. -/
def validateDeviceContents (lib : Lib) : List schemaContents → Option Err
  | [] => none
  | device :: rest =>
    let name := (getFieldAsString device "name").1
    match getAnnotations device with
    | some annotations =>
      match lib.ValidateSpecAnnotations name annotations with
      | some err => some err
      | none => validateDeviceContents lib rest
    | none => validateDeviceContents lib rest

/-- The method `Schema.validateContents`; the receiver and the map may be nil. -/
def Schema.validateContents (lib : Lib) (s : Option Schema) (any : Option Object) : Option Err :=
  match any, s with
  | none, _ => none
  | _, none => none
  | some m, some _ =>
    let contents : schemaContents := some m
    let specCheck : Option Err :=
      match getAnnotations contents with
      | some specAnnotations => lib.ValidateSpecAnnotations "" specAnnotations
      | none => none
    match specCheck with
    | some err => some err
    | none =>
      match getDevices contents with
      | Except.error err => some err
      | Except.ok devices => validateDeviceContents lib devices

/-- The first part of `Schema.ValidateData`: the untyped map `any` and the data
that the rest of the function uses.  Data that does not start with a brace
after trimming is decoded as YAML into `any` and marshalled again as JSON;
other data is left as it is and `any` stays nil. -/
def Schema.decode (lib : Lib) (data : Bytes) : Except Err (Option Object × Bytes) :=
  if !HasPrefix (lib.TrimSpace data) [123] then
    match lib.yamlUnmarshal data with
    | Except.error err => Except.error (Err.yamlUnmarshal err)
    | Except.ok any =>
      match lib.jsonMarshal any with
      | Except.error err => Except.error (Err.jsonRemarshal err)
      | Except.ok data => Except.ok (any, data)
  else Except.ok (none, data)

/-- The method `Schema.ValidateData`; the receiver may be nil. -/
def Schema.ValidateData (lib : Lib) (s : Option Schema) (data : Bytes) : Option Err :=
  match Schema.decode lib data with
  | Except.error err => some err
  | Except.ok (any, data) =>
    match Schema.validate s (JSONLoader.bytes data) with
    | some err => some err
    | none => Schema.validateContents lib s any

/-- The library function `bytes.TrimSpace` on ASCII data: the leading and the
trailing tab, line feed, vertical tab, form feed, carriage return and space
bytes are dropped. -/
def asciiTrimSpace (data : Bytes) : Bytes :=
  let isSpace : Nat → Bool := fun b => b == 9 || b == 10 || b == 11 || b == 12 || b == 13 || b == 32
  ((data.dropWhile isSpace).reverse.dropWhile isSpace).reverse

/-- Modelled from the spec: one implementation of what `Lib` stands for, used
where a statement is evaluated on a concrete input.  The annotation check is
the "annotation key grammar" reduced to non-empty keys, as in `checkAnnotations`;
decoding finds no mapping and marshalling gives the bytes of `null`. -/
def referenceLib : Lib where
  TrimSpace := asciiTrimSpace
  yamlUnmarshal := fun _ => Except.ok none
  jsonMarshal := fun _ => Except.ok (bytesOf "null")
  ValidateSpecAnnotations := fun _ annotations =>
    if annotations.all (fun kv => !kv.1.data.isEmpty) then none
    else some (Err.external "invalid annotation key")

end schema

/-- The first value a call of `newSpec` returns: the Spec, nil on the returns
with an error. -/
def returnedSpec : Except Error Spec → Option Spec
  | Except.ok spec => some spec
  | Except.error _ => none

/-! # Theorems

## The Edits Merge Engine -/

namespace specs

end specs

/-- An evaluation of the merge engine: two Edit Sets with the same environment key
and hooks of two phases, applied in turn to the empty target. -/
theorem apply_example :
    specs.ApplyEditsToOCISpec
        (specs.ApplyEditsToOCISpec (some {})
          (some { Env := ["KEY=1"],
                  Hooks := [{ HookName := "poststop", Path := "/bin/a" },
                            { HookName := "prestart", Path := "/bin/b" }] })).1
        (some { Env := ["KEY=2"], Mounts := [{ HostPath := "/h", ContainerPath := "/c" }],
                Hooks := [{ HookName := "prestart", Path := "/bin/c" }] }) =
      (some { Process := some { Env := ["KEY=1", "KEY=2"] },
              Mounts := [{ Source := "/h", Destination := "/c" }],
              Hooks := some { Prestart := [{ Path := "/bin/b" }, { Path := "/bin/c" }],
                              Poststop := [{ Path := "/bin/a" }] } },
       none) := by
  rfl

/-! ## Maps -/

theorem Map.get_set {α : Type} (m : Map α) (k k2 : String) (v : α) :
    (m.set k v).get k2 = if k2 = k then some v else m.get k2 := by
  induction m with
  | nil =>
    by_cases h : k2 = k
    · simp [Map.set, Map.get, List.lookup, h]
    · have hb : (k2 == k) = false := by simpa using h
      simp [Map.set, Map.get, List.lookup, h, hb]
  | cons p m ih =>
    obtain ⟨a, b⟩ := p
    simp only [Map.set, Map.get] at ih ⊢
    by_cases ha : a = k
    · subst ha
      simp only [List.filter_cons, beq_self_eq_true, Bool.not_true, Bool.false_eq_true, if_false]
      rw [ih]
      by_cases h : k2 = a
      · simp [h]
      · have hb : (k2 == a) = false := by simpa using h
        simp [h, List.lookup, hb]
    · have : (a == k) = false := by simpa using ha
      simp only [List.filter_cons, this, Bool.not_false, if_true, List.cons_append, List.lookup]
      by_cases h2 : k2 = a
      · subst h2
        simp [ha]
      · have : (k2 == a) = false := by simpa using h2
        simp only [this]
        exact ih

theorem validateDevices_error (deps : Deps) (s : Spec) (ds : List specs.Device) :
    ∀ (seen : List specs.Device) (m : Map Device),
      (∀ k, (m.get k).isSome = true ↔ k ∈ seen.map (fun x => x.Name)) →
      errorOf (Spec.validateDevices deps s ds m) = firstError (s.deviceChecks deps seen ds) := by
  induction ds with
  | nil => intro seen m _; rfl
  | cons d rest ih =>
    intro seen m hm
    simp only [Spec.validateDevices, Spec.deviceChecks, Spec.constructionCheck]
    cases hnd : newDevice deps (some s.toSpecCore) d with
    | error err => simp [errorOf, firstError]
    | ok dev =>
      have hname : dev.raw.Name = d.Name := by
        unfold newDevice at hnd
        simp only at hnd
        split at hnd
        · cases hnd
        · cases hnd; rfl
      simp only [firstError, hname, uniquenessCheck]
      by_cases hc : d.Name ∈ seen.map (fun x => x.Name)
      · have := (hm d.Name).2 hc
        simp [this, hc, errorOf, firstError]
      · have : (m.get d.Name).isSome = false := by
          cases h : (m.get d.Name).isSome
          · rfl
          · exact absurd ((hm d.Name).1 h) hc
        simp only [this, hc, if_false, firstError, Bool.false_eq_true]
        apply ih
        intro k
        rw [Map.get_set]
        by_cases hk : k = d.Name
        · simp [hk]
        · simp [hk, hm k]

/-! ## `Spec.validate` -/

theorem firstError_eq_none (l : List (Option Error)) :
    firstError l = none ↔ ∀ c ∈ l, c = none := by
  induction l with
  | nil => simp [firstError]
  | cons c l ih =>
    cases c with
    | none => simp [firstError, ih]
    | some e => simp [firstError]

theorem firstError_append_of_none (l1 l2 : List (Option Error)) (h : ∀ c ∈ l1, c = none) :
    firstError (l1 ++ l2) = firstError l2 := by
  induction l1 with
  | nil => rfl
  | cons c l ih =>
    have hc : c = none := h c (List.mem_cons_self _ _)
    subst hc
    simp only [List.cons_append, firstError]
    exact ih (fun x hx => h x (List.mem_cons_of_mem _ hx))

theorem firstError_append_of_some (l1 l2 : List (Option Error)) (e : Error)
    (h : firstError l1 = some e) : firstError (l1 ++ l2) = some e := by
  induction l1 with
  | nil => simp [firstError] at h
  | cons c l ih =>
    cases c with
    | none => simp only [List.cons_append, firstError] at h ⊢; exact ih h
    | some x => simpa [firstError] using h

/-- The error of `Spec.validate` is the first error of its checks, taken in the
order of the source. -/
theorem validate_error (deps : Deps) (s : Spec) :
    errorOf (s.validate deps) = firstError (s.checksInCodeOrder deps) := by
  unfold Spec.validate Spec.checksInCodeOrder Spec.preChecks Spec.minimumVersionCheck
  simp only [List.cons_append, List.nil_append]
  cases h1 : validateVersion deps s.raw.Version with
  | some e => simp [errorOf, firstError]
  | none =>
    cases h2 : deps.MinimumRequiredVersion s.raw with
    | error e => simp [errorOf, firstError]
    | ok minVersion =>
      by_cases h3 : deps.IsGreaterThan minVersion s.raw.Version = true
      · simp [errorOf, firstError, h3]
      · cases h4 : deps.ValidateVendorName s.vendor with
        | some e => simp [errorOf, firstError, h3]
        | none =>
          cases h5 : deps.ValidateClassName s.cls with
          | some e => simp [errorOf, firstError, h3]
          | none =>
            cases h6 : deps.ValidateSpecAnnotations s.raw.Kind s.raw.Annotations with
            | some e => simp [errorOf, firstError, h3]
            | none =>
              cases h7 : deps.Validate s.edits.raw with
              | some e => simp [errorOf, firstError, h3]
              | none =>
                simp only [firstError, h3, if_false]
                exact validateDevices_error deps s s.raw.Devices [] [] (by simp [Map.get])

theorem errorOf_eq_none {α : Type} (r : Except Error α) : errorOf r = none ↔ ∃ a, r = Except.ok a := by
  cases r <;> simp [errorOf]

theorem errorOf_eq_some {α : Type} (r : Except Error α) (e : Error) :
    errorOf r = some e ↔ r = Except.error e := by
  cases r <;> simp [errorOf]

theorem uniquenessChecks_none (ds : List specs.Device) :
    ∀ seen : List specs.Device, (∀ c ∈ uniquenessChecks seen ds, c = none) ↔
      ((ds.map (fun x => x.Name)).Nodup ∧ ∀ d ∈ ds, d.Name ∉ seen.map (fun x => x.Name)) := by
  induction ds with
  | nil => intro seen; simp [uniquenessChecks]
  | cons d rest ih =>
    intro seen
    have hu : uniquenessCheck seen d = none ↔ d.Name ∉ seen.map (fun x => x.Name) := by
      unfold uniquenessCheck
      split <;> simp_all
    simp only [uniquenessChecks, List.mem_cons, forall_eq_or_imp, ih, hu,
      List.map_cons, List.nodup_cons, List.map_append, List.mem_append, List.map_nil,
      List.mem_singleton, not_or]
    constructor
    · rintro ⟨h1, h2, h3⟩
      refine ⟨⟨?_, h2⟩, h1, fun x hx => (h3 x hx).1⟩
      intro hmem
      obtain ⟨x, hx, hxe⟩ := List.mem_map.1 hmem
      exact (h3 x hx).2.1 hxe
    · rintro ⟨⟨h1, h2⟩, h3, h4⟩
      refine ⟨h3, h2, fun x hx => ⟨h4 x hx, ?_, List.not_mem_nil _⟩⟩
      intro hxe
      exact h1 (List.mem_map.2 ⟨x, hx, hxe⟩)

theorem deviceChecks_none (deps : Deps) (s : Spec) (ds : List specs.Device) :
    ∀ seen : List specs.Device, (∀ c ∈ s.deviceChecks deps seen ds, c = none) ↔
      ((∀ d ∈ ds, s.constructionCheck deps d = none) ∧ ∀ c ∈ uniquenessChecks seen ds, c = none) := by
  induction ds with
  | nil => intro seen; simp [Spec.deviceChecks, uniquenessChecks]
  | cons d rest ih =>
    intro seen
    simp only [Spec.deviceChecks, uniquenessChecks, List.mem_cons, forall_eq_or_imp, ih]
    tauto

theorem constructionCheck_eq_none (deps : Deps) (s : Spec) (d : specs.Device) :
    s.constructionCheck deps d = none ↔
      (deps.ValidateDeviceName d.Name = none ∧
        deps.validationValidateSpecAnnotations (QualifiedName s.vendor s.cls d.Name) d.Annotations = none ∧
        (ContainerEdits.mk d.ContainerEdits).isEmpty = false ∧
        deps.Validate d.ContainerEdits = none) := by
  unfold Spec.constructionCheck newDevice Device.validate
  simp only [Device.edits, SpecCore.GetVendor, SpecCore.GetClass]
  cases h1 : deps.ValidateDeviceName d.Name with
  | some e => simp
  | none =>
    cases h2 : deps.validationValidateSpecAnnotations (QualifiedName s.vendor s.cls d.Name) d.Annotations with
    | some e => simp
    | none =>
      cases h3 : (ContainerEdits.mk d.ContainerEdits).isEmpty with
      | true => simp
      | false =>
        cases h4 : deps.Validate d.ContainerEdits with
        | some e => simp
        | none => simp

theorem deviceChecks_append (deps : Deps) (s : Spec) (pre rest : List specs.Device) :
    ∀ seen : List specs.Device,
      s.deviceChecks deps seen (pre ++ rest) =
        s.deviceChecks deps seen pre ++ s.deviceChecks deps (seen ++ pre) rest := by
  induction pre with
  | nil => intro seen; simp [Spec.deviceChecks]
  | cons d pre ih =>
    intro seen
    have h := ih (seen ++ [d])
    simp only [List.append_assoc, List.singleton_append] at h
    simp only [List.cons_append, Spec.deviceChecks, List.cons.injEq, true_and]
    exact h

theorem firstError_deviceChecks_of_constructed (deps : Deps) (s : Spec) (ds : List specs.Device)
    (h : ∀ d ∈ ds, s.constructionCheck deps d = none) :
    ∀ seen : List specs.Device,
      firstError (s.deviceChecks deps seen ds) = firstError (uniquenessChecks seen ds) := by
  induction ds with
  | nil => intro seen; rfl
  | cons d rest ih =>
    intro seen
    have hd : s.constructionCheck deps d = none := h d (List.mem_cons_self _ _)
    simp only [Spec.deviceChecks, uniquenessChecks, hd, firstError]
    cases uniquenessCheck seen d with
    | some e => rfl
    | none =>
      simp only [firstError]
      exact ih (fun x hx => h x (List.mem_cons_of_mem _ hx)) _

theorem firstError_deviceChecks_of_unique (deps : Deps) (s : Spec) (ds : List specs.Device) :
    ∀ seen : List specs.Device, (∀ c ∈ uniquenessChecks seen ds, c = none) →
      firstError (s.deviceChecks deps seen ds) = firstError (ds.map (s.constructionCheck deps)) := by
  induction ds with
  | nil => intro seen _; rfl
  | cons d rest ih =>
    intro seen h
    simp only [uniquenessChecks, List.mem_cons, forall_eq_or_imp] at h
    simp only [Spec.deviceChecks, List.map_cons, h.1]
    cases s.constructionCheck deps d with
    | some e => rfl
    | none =>
      simp only [firstError]
      exact ih _ h.2

theorem firstError_uniquenessChecks (ds : List specs.Device) (e : Error) :
    ∀ seen : List specs.Device, firstError (uniquenessChecks seen ds) = some e →
      ∃ pre d post, ds = pre ++ d :: post ∧ e = Error.multipleDevice d.Name ∧
        d.Name ∈ (seen ++ pre).map (fun x => x.Name) := by
  induction ds with
  | nil => intro seen h; simp [uniquenessChecks, firstError] at h
  | cons d rest ih =>
    intro seen h
    simp only [uniquenessChecks] at h
    by_cases hc : d.Name ∈ seen.map (fun x => x.Name)
    · refine ⟨[], d, rest, rfl, ?_, by simpa using hc⟩
      simp only [uniquenessCheck, hc, if_true, firstError] at h
      exact (Option.some.inj h).symm
    · simp only [uniquenessCheck, hc, if_false, firstError] at h
      obtain ⟨pre, x, post, hds, he, hx⟩ := ih _ h
      refine ⟨d :: pre, x, post, by simp [hds], he, ?_⟩
      simpa using hx


theorem constructionCheck_of_empty (deps : Deps) (s : Spec) (d : specs.Device)
    (hempty : (ContainerEdits.mk d.ContainerEdits).isEmpty = true) :
    s.constructionCheck deps d ≠ none := by
  intro h
  rw [constructionCheck_eq_none] at h
  rw [hempty] at h
  exact Bool.noConfusion h.2.2.1

theorem isEmpty_iff (e : specs.ContainerEdits) :
    (ContainerEdits.mk e).isEmpty = true ↔
      (e.Env = [] ∧ e.DeviceNodes = [] ∧ e.Mounts = [] ∧ e.Hooks = []) := by
  simp only [ContainerEdits.isEmpty, Bool.and_eq_true, List.isEmpty_iff]
  tauto

/-! ## The test table -/

/-- The modelled merge engine passes every case of the test table that has a
target. -/
theorem testCases_with_target_pass :
    (specs.testCases.filter (fun tc => tc.config.isSome)).all
      (specs.runTestCase specs.ApplyEditsToOCISpec) = true := by decide

/-- The one case of the test table without a target, "nil spec", has no Edit Set
either; the merge engine as the spec words it returns no error there, where the
case expects one. -/
theorem testCases_nil_spec :
    specs.testCases.filter (fun tc => !tc.config.isSome) =
        [{ name := "nil spec", expectedError := true }] ∧
      specs.ApplyEditsToOCISpec none none = (none, none) := by
  exact ⟨by decide, rfl⟩

/-- A nil target with an Edit Set that is not nil is an error, and the target
stays nil. -/
theorem apply_nil_target (e : specs.ContainerEdits) :
    specs.ApplyEditsToOCISpec none (some e) = (none, some Error.nilSpec) := rfl

theorem FS.read_put (fs : FS) (dir name : String) (data : Bytes) :
    (fs.put dir name data).read dir name = some data := by
  simp [FS.put, FS.read, List.find?]

theorem FS.has_put (fs : FS) (dir name : String) (data : Bytes) :
    (fs.put dir name data).has dir name = true := by
  simp [FS.has, FS.read_put]

theorem FS.read_remove (fs : FS) (dir name : String) : (fs.remove dir name).read dir name = none := by
  simp only [FS.read, FS.remove, Option.map_eq_none', List.find?_eq_none, List.mem_filter]
  intro f hf
  have h2 := hf.2
  simp only [Bool.not_eq_true', Bool.and_eq_false_iff, beq_eq_false_iff_ne, ne_eq] at h2
  simp only [Bool.and_eq_true, beq_iff_eq, not_and]
  intro h1
  rcases h2 with h | h
  · exact absurd h1 h
  · exact h

theorem FS.has_remove (fs : FS) (dir name : String) : (fs.remove dir name).has dir name = false := by
  simp [FS.has, FS.read_remove]

/-- What a run of `write` without error leaves at the path of the Spec: the data
of the encoding step. -/
theorem write_persists_encoding (deps : Deps) (sys : Sys) (s : Spec) (fs : FS)
    (hok : (s.write deps sys fs).2 = none) :
    ∃ data, s.encode deps = Except.ok data ∧
      (s.write deps sys fs).1.read (deps.Dir s.path) (deps.Base s.path) = some data := by
  unfold Spec.write at hok ⊢
  cases hv : validateSpec deps s.raw with
  | some err => simp [hv] at hok
  | none =>
    cases he : s.encode deps with
    | error err => simp [hv, he] at hok
    | ok data =>
      refine ⟨data, rfl, ?_⟩
      simp only [hv, he, MkdirAll, CreateTemp, tmpWrite, renameIn] at hok ⊢
      cases hm : sys.mkdirAll with
      | some err => simp [hm] at hok
      | none =>
        cases hc : sys.createTemp with
        | some err => simp [hm, hc] at hok
        | none =>
          simp only [hm, hc] at hok ⊢
          by_cases hx : fs.has (deps.Dir s.path) ("spec." ++ sys.random ++ ".tmp") = true
          · simp [hx] at hok
          · simp only [hx, Bool.false_eq_true, if_false] at hok ⊢
            cases hw : sys.write with
            | some p => simp [hw] at hok
            | none =>
              simp only [hw] at hok ⊢
              cases hr : sys.rename with
              | some err => simp [hr] at hok
              | none =>
                simp only [hr, FS.read_put] at hok ⊢

/-- The sibling path: when the rename fails, `write` removes the temporary file
and returns the error. -/
theorem write_rename_failure_removes_temp (deps : Deps) (sys : Sys) (s : Spec) (fs : FS)
    (data : Bytes) (err : Error)
    (hv : validateSpec deps s.raw = none) (he : s.encode deps = Except.ok data)
    (hm : sys.mkdirAll = none) (hc : sys.createTemp = none)
    (hfree : fs.has (deps.Dir s.path) ("spec." ++ sys.random ++ ".tmp") = false)
    (hw : sys.write = none) (hr : sys.rename = some err) :
    (s.write deps sys fs).2 = some (Error.failedWriteSpecFile err) ∧
      (s.write deps sys fs).1.has (deps.Dir s.path) ("spec." ++ sys.random ++ ".tmp") = false := by
  unfold Spec.write
  simp only [hv, he, MkdirAll, CreateTemp, tmpWrite, renameIn, hm, hc, hfree, hw, hr,
    Bool.false_eq_true, if_false, FS.has_remove, and_self]

/-! ## Paths and encodings -/

theorem Ext_append_yaml (p : String) : Ext (p ++ ".yaml") = ".yaml" := by
  unfold Ext
  have h : (p ++ ".yaml").data = p.data ++ ['.', 'y', 'a', 'm', 'l'] := by
    rw [String.data_append]
  rw [h]
  simp [extScan]

/-- The path stored by a successful `newSpec`, and the other fields it sets. -/
theorem newSpec_fields (deps : Deps) (raw : specs.Spec) (p : String) (priority : Int) (spec : Spec)
    (h : newSpec deps raw p priority = Except.ok spec) :
    spec.path =
        (if Ext (deps.Clean p) ≠ ".yaml" ∧ Ext (deps.Clean p) ≠ ".json" then deps.Clean p ++ defaultSpecExt
         else deps.Clean p) ∧
      spec.raw = raw ∧ spec.priority = priority := by
  unfold newSpec at h
  cases hv : deps.ValidateSpec raw with
  | some err => simp [hv] at h
  | none =>
    simp only [hv] at h
    split at h
    · cases h
    · cases h
      by_cases hc : Ext (deps.Clean p) ≠ ".yaml" ∧ Ext (deps.Clean p) ≠ ".json"
      · simp [hc]
      · simp [hc]

/-! ## The device map of a validated Spec -/

theorem newDevice_ok (deps : Deps) (spec : Option SpecCore) (d : specs.Device) (dev : Device)
    (h : newDevice deps spec d = Except.ok dev) : dev = { raw := d, spec := spec } := by
  unfold newDevice at h
  simp only at h
  split at h
  · cases h
  · cases h; rfl

theorem validateDevices_fresh (deps : Deps) (s : Spec) (ds : List specs.Device) :
    ∀ (m m2 : Map Device), Spec.validateDevices deps s ds m = Except.ok m2 →
      ∀ x ∈ ds, m.get x.Name = none := by
  induction ds with
  | nil => intro m m2 _ x hx; cases hx
  | cons d rest ih =>
    intro m m2 h x hx
    simp only [Spec.validateDevices] at h
    cases hnd : newDevice deps (some s.toSpecCore) d with
    | error err => simp [hnd] at h
    | ok dev =>
      have hdev := newDevice_ok deps _ d dev hnd
      subst hdev
      simp only [hnd] at h
      cases hg : m.get d.Name with
      | some v => simp [hg] at h
      | none =>
        simp only [hg, Option.isSome_none, Bool.false_eq_true, if_false] at h
        rcases List.mem_cons.1 hx with rfl | hmem
        · exact hg
        · have h2 := ih _ _ h x hmem
          rw [Map.get_set] at h2
          by_cases hk : x.Name = d.Name
          · simp [hk] at h2
          · simpa [hk] using h2

theorem validateDevices_get (deps : Deps) (s : Spec) (ds : List specs.Device) :
    ∀ (m m2 : Map Device), Spec.validateDevices deps s ds m = Except.ok m2 →
      ∀ k, m2.get k =
        match ds.find? (fun d => d.Name == k) with
        | some d => some { raw := d, spec := some s.toSpecCore }
        | none => m.get k := by
  induction ds with
  | nil =>
    intro m m2 h k
    simp only [Spec.validateDevices, Except.ok.injEq] at h
    subst h
    rfl
  | cons d rest ih =>
    intro m m2 h k
    have hall := h
    simp only [Spec.validateDevices] at h
    cases hnd : newDevice deps (some s.toSpecCore) d with
    | error err => simp [hnd] at h
    | ok dev =>
      have hdev := newDevice_ok deps _ d dev hnd
      subst hdev
      simp only [hnd] at h
      cases hg : m.get d.Name with
      | some v => simp [hg] at h
      | none =>
        simp only [hg, Option.isSome_none, Bool.false_eq_true, if_false] at h
        have hrest := ih _ _ h k
        have hfresh := validateDevices_fresh deps s rest _ _ h
        by_cases hk : d.Name = k
        · subst hk
          have hnone : rest.find? (fun x => x.Name == d.Name) = none := by
            rw [List.find?_eq_none]
            intro x hx hxe
            have h2 := hfresh x hx
            rw [Map.get_set] at h2
            have : x.Name = d.Name := by simpa using hxe
            simp [this] at h2
          rw [hrest, hnone]
          simp [List.find?, Map.get_set]
        · have hb : (d.Name == k) = false := by simpa using hk
          rw [hrest]
          simp only [List.find?, hb, Map.get_set]
          have hk2 : ¬ k = d.Name := fun e => hk e.symm
          simp [hk2]

theorem validate_ok (deps : Deps) (s : Spec) (m : Map Device)
    (h : s.validate deps = Except.ok m) :
    Spec.validateDevices deps s s.raw.Devices [] = Except.ok m := by
  unfold Spec.validate at h
  cases h1 : validateVersion deps s.raw.Version with
  | some e => simp [h1] at h
  | none =>
    cases h2 : deps.MinimumRequiredVersion s.raw with
    | error e => simp [h1, h2] at h
    | ok minVersion =>
      by_cases h3 : deps.IsGreaterThan minVersion s.raw.Version = true
      · simp [h1, h2, h3] at h
      · cases h4 : deps.ValidateVendorName s.vendor with
        | some e => simp [h1, h2, h3, h4] at h
        | none =>
          cases h5 : deps.ValidateClassName s.cls with
          | some e => simp [h1, h2, h3, h4, h5] at h
          | none =>
            cases h6 : deps.ValidateSpecAnnotations s.raw.Kind s.raw.Annotations with
            | some e => simp [h1, h2, h3, h4, h5, h6] at h
            | none =>
              cases h7 : deps.Validate s.edits.raw with
              | some e => simp [h1, h2, h3, h4, h5, h6, h7] at h
              | none => simpa [h1, h2, h3, h4, h5, h6, h7] using h

/-- A Spec built by `newSpec` is the Spec that was validated, with the device
map that the validation returned. -/
theorem newSpec_validated (deps : Deps) (raw : specs.Spec) (p : String) (priority : Int) (spec : Spec)
    (h : newSpec deps raw p priority = Except.ok spec) :
    ∃ spec0 : Spec, spec0.raw = raw ∧ spec0.validate deps = Except.ok spec.devices ∧
      spec.toSpecCore = spec0.toSpecCore := by
  unfold newSpec at h
  cases hv : deps.ValidateSpec raw with
  | some err => simp [hv] at h
  | none =>
    simp only [hv] at h
    split at h
    · cases h
    · rename_i devices hval
      cases h
      refine ⟨_, ?_, hval, rfl⟩
      by_cases hc : Ext (deps.Clean p) ≠ ".yaml" ∧ Ext (deps.Clean p) ≠ ".json"
      · simp [hc]
      · simp [hc]

/-- The device map of a Spec built by `newSpec`, read by name. -/
theorem newSpec_devices (deps : Deps) (raw : specs.Spec) (p : String) (priority : Int) (spec : Spec)
    (h : newSpec deps raw p priority = Except.ok spec) :
    ∀ k, spec.devices.get k =
      match raw.Devices.find? (fun d => d.Name == k) with
      | some d => some { raw := d, spec := some spec.toSpecCore }
      | none => none := by
  obtain ⟨spec0, hraw, hval, hcore⟩ := newSpec_validated deps raw p priority spec h
  intro k
  have h2 := validateDevices_get deps _ _ _ _ (validate_ok deps _ _ hval) k
  rw [hraw, ← hcore] at h2
  exact h2

theorem validate_ok_nodup (deps : Deps) (s : Spec) (m : Map Device)
    (h : s.validate deps = Except.ok m) : (s.raw.Devices.map (fun d => d.Name)).Nodup := by
  have he := validate_error deps s
  rw [h] at he
  have h2 := (firstError_eq_none _).1 he.symm
  unfold Spec.checksInCodeOrder at h2
  have h3 : ∀ c ∈ s.deviceChecks deps [] s.raw.Devices, c = none :=
    fun c hc => h2 c (List.mem_append_right _ hc)
  rw [deviceChecks_none, uniquenessChecks_none] at h3
  exact h3.2.1

theorem find_of_nodup (ds : List specs.Device) (d : specs.Device)
    (hn : (ds.map (fun x => x.Name)).Nodup) (hd : d ∈ ds) :
    ds.find? (fun x => x.Name == d.Name) = some d := by
  induction ds with
  | nil => cases hd
  | cons x rest ih =>
    simp only [List.map_cons, List.nodup_cons] at hn
    rcases List.mem_cons.1 hd with rfl | hmem
    · simp [List.find?]
    · have hne : x.Name ≠ d.Name := by
        intro e
        exact hn.1 (e ▸ List.mem_map.2 ⟨d, hmem, rfl⟩)
      have hb : (x.Name == d.Name) = false := by simpa using hne
      simp only [List.find?, hb]
      exact ih hn.2 hmem

/-! ## Hook names and the schema check -/

theorem checkEdits_of_unknown_hook (e : specs.ContainerEdits)
    (h : ∃ hook ∈ e.Hooks, hook.HookName ∉ validHookNames) : (checkEdits e).isSome = true := by
  obtain ⟨hook, hmem, hname⟩ := h
  unfold checkEdits
  cases hf : e.Hooks.find? (fun h => !validHookNames.contains h.HookName) with
  | some x => rfl
  | none =>
    have := List.find?_eq_none.1 hf hook hmem
    simp only [Bool.not_eq_true, Bool.not_eq_false', List.contains_iff_exists_mem_beq,
      beq_iff_eq, exists_eq_right'] at this
    exact absurd this hname

/-- An evaluation of `ValidateData` on data that is not JSON-shaped: under the
no-op schema the content checks run, and a document whose annotations have an
empty key is rejected. -/
theorem ValidateData_yaml_example :
    schema.Schema.ValidateData
        { schema.referenceLib with
          yamlUnmarshal := fun _ =>
            Except.ok (some [("annotations", schema.Value.obj [("", schema.Value.str "x")])]) }
        (some schema.NopSchema) (bytesOf "annotations:\n  \"\": x\n") =
      some (schema.Err.external "invalid annotation key") := by
  rfl


/-! # Properties of the specification -/

/-- C2, counterexample: a Spec with one device `dev1` whose only edit is a hook
named `bogusHook` meets every condition the specification lists (non-empty Edit
Set, distinct names, version not below the minimum, name and annotation checks)
and yet `Spec.validate` fails on it, with the error of the Edit Set check. -/
theorem validate_iff_stated_counterexample :
    (exampleSpec [bogusHookDevice "dev1"]).statedConditions referenceDeps ∧
      (exampleSpec [bogusHookDevice "dev1"]).validate referenceDeps =
        Except.error (Error.failedAddDevice "dev1"
          (Error.invalidDevice "dev1" (Error.external "unsupported hook bogusHook"))) := by
  refine ⟨?_, by rfl⟩
  unfold Spec.statedConditions
  decide

/-- C2, as amended: `Spec.validate` succeeds if and only if the conditions the
specification lists hold and, besides them, the version token is a recognised
one, the spec-level Edit Set is valid and the Edit Set of every device is
valid. -/
theorem validate_succeeds_iff (deps : Deps) (s : Spec) :
    (∃ devices, s.validate deps = Except.ok devices) ↔
      (s.statedConditions deps ∧
        validateVersion deps s.raw.Version = none ∧
        deps.Validate s.raw.ContainerEdits = none ∧
        ∀ d ∈ s.raw.Devices, deps.Validate d.ContainerEdits = none) := by
  rw [← errorOf_eq_none, validate_error, firstError_eq_none]
  unfold Spec.checksInCodeOrder
  simp only [List.mem_append, or_imp, forall_and, deviceChecks_none, uniquenessChecks_none,
    constructionCheck_eq_none, Spec.statedConditions, Spec.preChecks, List.mem_cons,
    List.mem_singleton, List.not_mem_nil, forall_eq, Spec.edits, List.map_nil,
    not_false_eq_true, implies_true, and_true, or_false, forall_eq_or_imp]
  tauto

/-- C3: for every Spec whose device list has two entries with the same name,
`Spec.validate` returns an error (and so no device map); and when every other
check passes (the checks before the devices, and the construction of every
device) the error is the `multiple device` error, on a name that occurs at
least twice in the list. -/
theorem duplicate_device_name_rejected (deps : Deps) (s : Spec)
    (hdup : ¬ (s.raw.Devices.map (fun d => d.Name)).Nodup) :
    (∃ err, s.validate deps = Except.error err) ∧
      ((∀ c ∈ s.preChecks deps, c = none) →
        (∀ d ∈ s.raw.Devices, s.constructionCheck deps d = none) →
        ∃ name, s.validate deps = Except.error (Error.multipleDevice name) ∧
          2 ≤ (s.raw.Devices.map (fun d => d.Name)).count name) := by
  have hu : firstError (uniquenessChecks [] s.raw.Devices) ≠ none := by
    intro h
    rw [firstError_eq_none, uniquenessChecks_none] at h
    exact hdup h.1
  constructor
  · cases hv : s.validate deps with
    | error err => exact ⟨err, rfl⟩
    | ok devices =>
      exfalso
      have h := validate_error deps s
      rw [hv] at h
      have h2 := (firstError_eq_none _).1 h.symm
      unfold Spec.checksInCodeOrder at h2
      have h3 : ∀ c ∈ s.deviceChecks deps [] s.raw.Devices, c = none :=
        fun c hc => h2 c (List.mem_append_right _ hc)
      rw [deviceChecks_none] at h3
      exact hu ((firstError_eq_none _).2 h3.2)
  · intro hpre hcons
    have h := validate_error deps s
    unfold Spec.checksInCodeOrder at h
    rw [firstError_append_of_none _ _ hpre,
      firstError_deviceChecks_of_constructed deps s _ hcons] at h
    cases hf : firstError (uniquenessChecks [] s.raw.Devices) with
    | none => exact absurd hf hu
    | some e =>
      obtain ⟨pre, d, post, hds, he, hmem⟩ := firstError_uniquenessChecks _ e [] hf
      refine ⟨d.Name, ?_, ?_⟩
      · rw [hf, errorOf_eq_some] at h
        rw [h, he]
      · rw [hds]
        simp only [List.nil_append] at hmem
        simp only [List.map_append, List.map_cons, List.count_append, List.count_cons_self]
        have := List.count_pos_iff.2 hmem
        omega

/-- C3, witness: the Spec with two devices both named `dev1`. -/
theorem duplicate_device_name_rejected_witness :
    (∃ err, (exampleSpec [envDevice "dev1", envDevice "dev1"]).validate referenceDeps = Except.error err) ∧
      ∃ name, (exampleSpec [envDevice "dev1", envDevice "dev1"]).validate referenceDeps =
          Except.error (Error.multipleDevice name) ∧
        2 ≤ ((exampleSpec [envDevice "dev1", envDevice "dev1"]).raw.Devices.map (fun d => d.Name)).count name :=
  have h := duplicate_device_name_rejected referenceDeps
    (exampleSpec [envDevice "dev1", envDevice "dev1"]) (by decide)
  ⟨h.1, h.2 (by decide) (by decide)⟩

/-- C4, counterexample: a Spec that contains the device `dev1` with an entirely
empty Edit Set, listed after two devices named `dev0`; `Spec.validate` fails
with the `multiple device` error on `dev0`, not with the empty-edits error. -/
theorem empty_edits_error_counterexample :
    emptyDevice "dev1" ∈ (exampleSpec [envDevice "dev0", envDevice "dev0", emptyDevice "dev1"]).raw.Devices ∧
      (ContainerEdits.mk (emptyDevice "dev1").ContainerEdits).isEmpty = true ∧
      (exampleSpec [envDevice "dev0", envDevice "dev0", emptyDevice "dev1"]).validate referenceDeps =
        Except.error (Error.multipleDevice "dev0") :=
  ⟨by decide, by decide, by rfl⟩

/-- C4, as amended: for every Spec containing a device `d` whose Edit Set is
empty (env, deviceNodes, mounts and hooks all empty), `Spec.validate` fails and
`newDevice` constructs no Device for `d`; and when the checks that run before
the emptiness check pass (the checks before the devices, the construction of
the devices listed before `d` and the distinctness of their names, and the name
and annotation checks of `d`), the error is the empty-edits error wrapped with
the name of `d`. -/
theorem empty_edits_rejected (deps : Deps) (s : Spec) (pre post : List specs.Device)
    (d : specs.Device) (hd : s.raw.Devices = pre ++ d :: post)
    (hempty : d.ContainerEdits.Env = [] ∧ d.ContainerEdits.DeviceNodes = [] ∧
      d.ContainerEdits.Mounts = [] ∧ d.ContainerEdits.Hooks = []) :
    (∃ err, s.validate deps = Except.error err) ∧
      (∃ err, newDevice deps (some s.toSpecCore) d = Except.error err) ∧
      ((∀ c ∈ s.preChecks deps, c = none) →
        (∀ x ∈ pre, s.constructionCheck deps x = none) →
        (pre.map (fun x => x.Name)).Nodup →
        deps.ValidateDeviceName d.Name = none →
        deps.validationValidateSpecAnnotations (QualifiedName s.vendor s.cls d.Name) d.Annotations = none →
        s.validate deps = Except.error (Error.failedAddDevice d.Name Error.emptyDeviceEdits)) := by
  have he : (ContainerEdits.mk d.ContainerEdits).isEmpty = true := (isEmpty_iff _).2 hempty
  have hc := constructionCheck_of_empty deps s d he
  refine ⟨?_, ?_, ?_⟩
  · cases hv : s.validate deps with
    | error err => exact ⟨err, rfl⟩
    | ok devices =>
      exfalso
      have h := validate_error deps s
      rw [hv] at h
      have h2 := (firstError_eq_none _).1 h.symm
      unfold Spec.checksInCodeOrder at h2
      have h3 : ∀ c ∈ s.deviceChecks deps [] s.raw.Devices, c = none :=
        fun c hc => h2 c (List.mem_append_right _ hc)
      rw [deviceChecks_none] at h3
      exact hc (h3.1 d (by simp [hd]))
  · unfold Spec.constructionCheck at hc
    cases hn : newDevice deps (some s.toSpecCore) d with
    | error err => exact ⟨err, rfl⟩
    | ok dev => simp [hn] at hc
  · intro hpre hcons hnodup hname hann
    have h := validate_error deps s
    unfold Spec.checksInCodeOrder at h
    have hprefix : ∀ c ∈ s.deviceChecks deps [] pre, c = none :=
      (deviceChecks_none deps s pre []).2
        ⟨hcons, (uniquenessChecks_none pre []).2 ⟨hnodup, by simp⟩⟩
    rw [firstError_append_of_none _ _ hpre, hd, deviceChecks_append,
      firstError_append_of_none _ _ hprefix] at h
    have hcheck : s.constructionCheck deps d = some (Error.failedAddDevice d.Name Error.emptyDeviceEdits) := by
      unfold Spec.constructionCheck newDevice Device.validate
      simp only [Device.edits, SpecCore.GetVendor, SpecCore.GetClass, hname, hann, he, if_true]
    simp only [Spec.deviceChecks, hcheck, firstError] at h
    exact (errorOf_eq_some _ _).1 h

/-- C4, witness: the Spec with a valid device `dev0` followed by the device
`dev1` with an empty Edit Set. -/
theorem empty_edits_rejected_witness :
    (∃ err, (exampleSpec [envDevice "dev0", emptyDevice "dev1"]).validate referenceDeps = Except.error err) ∧
      (∃ err, newDevice referenceDeps
        (some (exampleSpec [envDevice "dev0", emptyDevice "dev1"]).toSpecCore) (emptyDevice "dev1") =
          Except.error err) ∧
      (exampleSpec [envDevice "dev0", emptyDevice "dev1"]).validate referenceDeps =
        Except.error (Error.failedAddDevice "dev1" Error.emptyDeviceEdits) :=
  have h := empty_edits_rejected referenceDeps (exampleSpec [envDevice "dev0", emptyDevice "dev1"])
    [envDevice "dev0"] [] (emptyDevice "dev1") rfl (by decide)
  ⟨h.1, h.2.1, h.2.2 (by decide) (by decide) (by decide) (by decide) (by decide)⟩

/-- C5, counterexample: on the Spec with devices `dev1`, `dev1` and then `dev2`
with an empty Edit Set, `Spec.validate` returns the `multiple device` error on
`dev1`, whereas the first failing check in the order of the specification
(every construction before the uniqueness check) is the construction of
`dev2`. -/
theorem validate_spec_order_counterexample :
    (exampleSpec [envDevice "dev1", envDevice "dev1", emptyDevice "dev2"]).validate referenceDeps =
        Except.error (Error.multipleDevice "dev1") ∧
      firstError ((exampleSpec [envDevice "dev1", envDevice "dev1", emptyDevice "dev2"]).checksInSpecOrder
        referenceDeps) = some (Error.failedAddDevice "dev2" Error.emptyDeviceEdits) :=
  ⟨by rfl, by decide⟩

/-- C5, as amended: the error of `Spec.validate` is the error of the first failing
check in the order version token, minimum required version, vendor name, class
name, spec annotations, spec-level Edit Set, and then, device by device in list
order, the construction of the device followed by its uniqueness against the
devices before it.  This order and the order of the specification accept the
same Specs, and they report the same error on every Spec whose device names are
pairwise distinct. -/
theorem validate_check_order (deps : Deps) (s : Spec) :
    errorOf (s.validate deps) = firstError (s.checksInCodeOrder deps) ∧
      (firstError (s.checksInSpecOrder deps) = none ↔ firstError (s.checksInCodeOrder deps) = none) ∧
      ((s.raw.Devices.map (fun d => d.Name)).Nodup →
        firstError (s.checksInSpecOrder deps) = firstError (s.checksInCodeOrder deps)) := by
  refine ⟨validate_error deps s, ?_, ?_⟩
  · simp only [firstError_eq_none, Spec.checksInSpecOrder, Spec.checksInCodeOrder, List.mem_append,
      or_imp, forall_and, deviceChecks_none, List.mem_map, forall_exists_index, and_imp,
      forall_apply_eq_imp_iff₂]
    constructor
    · rintro ⟨⟨h1, h2⟩, h3⟩
      exact ⟨h1, fun d hd => h2 d hd, h3⟩
    · rintro ⟨h1, h2, h3⟩
      exact ⟨⟨h1, fun d hd => h2 d hd⟩, h3⟩
  · intro hnodup
    have hu : ∀ c ∈ uniquenessChecks [] s.raw.Devices, c = none :=
      (uniquenessChecks_none _ []).2 ⟨hnodup, by simp⟩
    unfold Spec.checksInSpecOrder Spec.checksInCodeOrder
    cases hp : firstError (s.preChecks deps) with
    | some e =>
      rw [List.append_assoc, firstError_append_of_some _ _ e hp, firstError_append_of_some _ _ e hp]
    | none =>
      have hpre := (firstError_eq_none _).1 hp
      rw [List.append_assoc, firstError_append_of_none _ _ hpre, firstError_append_of_none _ _ hpre,
        firstError_deviceChecks_of_unique deps s _ [] hu]
      cases hc : firstError (s.raw.Devices.map (s.constructionCheck deps)) with
      | some e => exact firstError_append_of_some _ _ e hc
      | none =>
        rw [firstError_append_of_none _ _ ((firstError_eq_none _).1 hc)]
        exact (firstError_eq_none _).2 hu

/-- C5, witness: on the Spec with a valid device `dev1` followed by the device
`dev2` with an empty Edit Set, whose names are distinct, both orders report the
construction error of `dev2`, and that is the error of `Spec.validate`. -/
theorem validate_check_order_witness :
    errorOf ((exampleSpec [envDevice "dev1", emptyDevice "dev2"]).validate referenceDeps) =
        some (Error.failedAddDevice "dev2" Error.emptyDeviceEdits) ∧
      firstError ((exampleSpec [envDevice "dev1", emptyDevice "dev2"]).checksInSpecOrder referenceDeps) =
        firstError ((exampleSpec [envDevice "dev1", emptyDevice "dev2"]).checksInCodeOrder referenceDeps) :=
  ⟨(validate_check_order referenceDeps (exampleSpec [envDevice "dev1", emptyDevice "dev2"])).1,
   (validate_check_order referenceDeps (exampleSpec [envDevice "dev1", emptyDevice "dev2"])).2.2
     (by decide)⟩

/-- C6: for every target configuration, a nil one included, applying a nil Edit
Set returns no error and leaves the target unchanged, both through
`ApplyEditsToOCISpec` and through `ContainerEdits.Apply` on a nil receiver. -/
theorem nil_edits_noop (config : Option oci.Spec) :
    specs.ApplyEditsToOCISpec config none = (config, none) ∧
      ContainerEdits.Apply none config = (config, none) :=
  ⟨rfl, rfl⟩

/-- C7, what the code persists: when `write` returns no error, the file at the
path of the Spec holds, for a `.yaml` path, the bytes of `--` and a newline
followed by the YAML marshalling of the document, which is not the document
separator line `---` followed by that marshalling; and for a `.json` path
exactly the JSON marshalling of the document. -/
theorem write_persisted_bytes (deps : Deps) (sys : Sys) (s : Spec) (fs : FS)
    (hok : (s.write deps sys fs).2 = none) :
    (Ext s.path = ".yaml" →
      ∃ data, deps.yamlMarshal s.raw = Except.ok data ∧
        (s.write deps sys fs).1.read (deps.Dir s.path) (deps.Base s.path) = some (yamlPrefix ++ data) ∧
        (s.write deps sys fs).1.read (deps.Dir s.path) (deps.Base s.path) ≠
          some (yamlDocumentSeparator ++ data)) ∧
    (Ext s.path = ".json" →
      ∃ data, deps.jsonMarshal s.raw = Except.ok data ∧
        (s.write deps sys fs).1.read (deps.Dir s.path) (deps.Base s.path) = some data) := by
  obtain ⟨data, he, hr⟩ := write_persists_encoding deps sys s fs hok
  constructor
  · intro hext
    unfold Spec.encode at he
    rw [if_pos hext] at he
    cases hy : deps.yamlMarshal s.raw with
    | error err => simp [hy] at he
    | ok y =>
      simp only [hy, Except.ok.injEq] at he
      refine ⟨y, rfl, by rw [hr, he], ?_⟩
      rw [hr, ← he]
      simp [yamlPrefix, yamlDocumentSeparator]
  · intro hext
    unfold Spec.encode at he
    have hne : Ext s.path ≠ ".yaml" := by rw [hext]; decide
    rw [if_neg hne] at he
    exact ⟨data, he, hr⟩

/-- C7, witness: writing the Spec of path `vendor.yaml` to an empty directory. -/
theorem write_persisted_bytes_witness :
    ((exampleSpec [envDevice "dev1"]).write referenceDeps {} []).1.read "." "vendor.yaml" =
        some (bytesOf "--\ncdiVersion: 0.6.0\nkind: vendor.com/device\n") ∧
      ((exampleSpec [envDevice "dev1"]).write referenceDeps {} []).1.read "." "vendor.yaml" ≠
        some (bytesOf "---\ncdiVersion: 0.6.0\nkind: vendor.com/device\n") := by
  have h := (write_persisted_bytes referenceDeps {} (exampleSpec [envDevice "dev1"]) [] (by rfl)).1
    (by decide)
  obtain ⟨data, hd, h1, h2⟩ := h
  have hdata : data = bytesOf "cdiVersion: 0.6.0\nkind: vendor.com/device\n" := by
    have : referenceDeps.yamlMarshal (exampleSpec [envDevice "dev1"]).raw =
        Except.ok (bytesOf "cdiVersion: 0.6.0\nkind: vendor.com/device\n") := by rfl
    rw [this] at hd
    exact (Except.ok.inj hd).symm
  subst hdata
  exact ⟨h1, h2⟩

/-- C8, what the code does when the write to the temporary file fails: `write`
returns the `failed to write Spec file` error, and the temporary file is still
in the target directory, holding the bytes written before the failure. -/
theorem write_failure_leaves_temp (deps : Deps) (sys : Sys) (s : Spec) (fs : FS)
    (data : Bytes) (n : Nat) (err : Error)
    (hv : validateSpec deps s.raw = none) (he : s.encode deps = Except.ok data)
    (hm : sys.mkdirAll = none) (hc : sys.createTemp = none)
    (hfree : fs.has (deps.Dir s.path) ("spec." ++ sys.random ++ ".tmp") = false)
    (hw : sys.write = some (n, err)) :
    (s.write deps sys fs).2 = some (Error.failedWriteSpecFile err) ∧
      (s.write deps sys fs).1.read (deps.Dir s.path) ("spec." ++ sys.random ++ ".tmp") =
        some (data.take n) ∧
      (s.write deps sys fs).1.has (deps.Dir s.path) ("spec." ++ sys.random ++ ".tmp") = true := by
  unfold Spec.write
  simp only [hv, he, MkdirAll, CreateTemp, tmpWrite, hm, hc, hfree, hw,
    Bool.false_eq_true, if_false, FS.has_put, FS.read_put, and_self]

/-- C8, witness: writing the Spec of path `vendor.yaml` when the device is full
after five bytes. -/
theorem write_failure_leaves_temp_witness :
    ((exampleSpec [envDevice "dev1"]).write referenceDeps
        { write := some (5, Error.os false "no space left on device") } []).2 =
        some (Error.failedWriteSpecFile (Error.os false "no space left on device")) ∧
      ((exampleSpec [envDevice "dev1"]).write referenceDeps
        { write := some (5, Error.os false "no space left on device") } []).1.read "." "spec.0.tmp" =
        some (bytesOf "--\ncd") ∧
      ((exampleSpec [envDevice "dev1"]).write referenceDeps
        { write := some (5, Error.os false "no space left on device") } []).1.has "." "spec.0.tmp" = true :=
  write_failure_leaves_temp referenceDeps { write := some (5, Error.os false "no space left on device") }
    (exampleSpec [envDevice "dev1"]) [] (bytesOf "--\ncdiVersion: 0.6.0\nkind: vendor.com/device\n") 5
    (Error.os false "no space left on device") (by rfl) (by rfl) (by rfl) (by rfl) (by rfl) (by rfl)

/-- C9: for every path `p` given to a successful `newSpec`, the stored path is the
cleaned `p` when its extension is `.yaml` or `.json` and the cleaned `p` with
`.yaml` appended otherwise, so its extension is `.yaml` or `.json`; and the
encoding step of `write` is the JSON marshalling when the extension of the
cleaned `p` is `.json` and the YAML marshalling (with its prefix) in every other
case. -/
theorem newSpec_path_encoding (deps : Deps) (raw : specs.Spec) (p : String) (priority : Int)
    (spec : Spec) (h : newSpec deps raw p priority = Except.ok spec) :
    spec.GetPath =
        (if Ext (deps.Clean p) = ".yaml" ∨ Ext (deps.Clean p) = ".json" then deps.Clean p
         else deps.Clean p ++ ".yaml") ∧
      (Ext spec.GetPath = ".yaml" ∨ Ext spec.GetPath = ".json") ∧
      (Ext (deps.Clean p) = ".json" → spec.encode deps = deps.jsonMarshal spec.raw) ∧
      (Ext (deps.Clean p) ≠ ".json" →
        spec.encode deps =
          match deps.yamlMarshal spec.raw with
          | Except.error err => Except.error err
          | Except.ok data => Except.ok (yamlPrefix ++ data)) := by
  obtain ⟨hp, _, _⟩ := newSpec_fields deps raw p priority spec h
  unfold Spec.GetPath Spec.encode
  by_cases hy : Ext (deps.Clean p) = ".yaml"
  · have hpath : spec.path = deps.Clean p := by rw [hp]; simp [hy]
    have hj : Ext (deps.Clean p) ≠ ".json" := by rw [hy]; decide
    simp [hpath, hy]
  · by_cases hj : Ext (deps.Clean p) = ".json"
    · have hpath : spec.path = deps.Clean p := by rw [hp]; simp [hj]
      have : ¬ (".json" : String) = ".yaml" := by decide
      simp [hpath, hj, this]
    · have hpath : spec.path = deps.Clean p ++ ".yaml" := by rw [hp]; simp [hy, hj, defaultSpecExt]
      simp [hpath, hy, hj, Ext_append_yaml]

/-- C9, witness: `newSpec` on the path `vendor`, which has no extension. -/
theorem newSpec_path_encoding_witness :
    ∃ spec, newSpec referenceDeps (exampleSpec [envDevice "dev1"]).raw "vendor" 10 = Except.ok spec ∧
      spec.GetPath = "vendor.yaml" ∧
      (Ext spec.GetPath = ".yaml" ∨ Ext spec.GetPath = ".json") :=
  ⟨_, rfl,
    (newSpec_path_encoding referenceDeps (exampleSpec [envDevice "dev1"]).raw "vendor" 10 _ rfl).1,
    (newSpec_path_encoding referenceDeps (exampleSpec [envDevice "dev1"]).raw "vendor" 10 _ rfl).2.1⟩

/-- C10: `ReadSpec` returns no Spec and no error when reading reports that the
file does not exist; no Spec and an error for any other read failure, when the
bytes fail to parse, when they parse to no document, and when `newSpec` rejects
the document; the Spec and no error otherwise; and never both a Spec and an
error. -/
theorem ReadSpec_outcomes (deps : Deps) (path : String) (priority : Int) :
    (IsNotExist (deps.ReadFile path).2 = true → ReadSpec deps path priority = (none, none)) ∧
      (∀ err, IsNotExist (deps.ReadFile path).2 = false → (deps.ReadFile path).2 = some err →
        ReadSpec deps path priority = (none, some (Error.failedToRead path err))) ∧
      ((deps.ReadFile path).2 = none →
        (∀ err, deps.yamlUnmarshal (deps.ReadFile path).1 = Except.error err →
          ReadSpec deps path priority =
            (none, some (Error.failedToRead path (Error.failedToUnmarshal err)))) ∧
        (deps.yamlUnmarshal (deps.ReadFile path).1 = Except.ok none →
          ReadSpec deps path priority = (none, some (Error.noSpecData path))) ∧
        (∀ raw err, deps.yamlUnmarshal (deps.ReadFile path).1 = Except.ok (some raw) →
          newSpec deps raw path priority = Except.error err →
          ReadSpec deps path priority = (none, some err)) ∧
        (∀ raw spec, deps.yamlUnmarshal (deps.ReadFile path).1 = Except.ok (some raw) →
          newSpec deps raw path priority = Except.ok spec →
          ReadSpec deps path priority = (some spec, none))) ∧
      ¬ ((ReadSpec deps path priority).1.isSome = true ∧ (ReadSpec deps path priority).2.isSome = true) := by
  unfold ReadSpec ParseSpec
  cases hr : deps.ReadFile path with
  | mk data rerr =>
    simp only
    cases rerr with
    | some e =>
      cases hn : IsNotExist (some e) <;> simp [hn]
    | none =>
      have hn : IsNotExist (none : Option Error) = false := rfl
      simp only [hn, Bool.false_eq_true, if_false]
      cases hu : deps.yamlUnmarshal data with
      | error err => simp
      | ok doc =>
        cases doc with
        | none => simp
        | some raw =>
          cases hs : newSpec deps raw path priority with
          | error err =>
            simp only [hs]
            refine ⟨fun h => absurd h (by simp), fun e _ h => absurd h (by simp), fun _ => ?_, by simp⟩
            refine ⟨fun e h => absurd h (by simp), fun h => absurd h (by simp), ?_, ?_⟩
            · intro raw2 err2 h1 h2
              cases h1
              rw [hs] at h2
              cases h2
              rfl
            · intro raw2 spec2 h1 h2
              cases h1
              rw [hs] at h2
              cases h2
          | ok spec =>
            simp only [hs]
            refine ⟨fun h => absurd h (by simp), fun e _ h => absurd h (by simp), fun _ => ?_, by simp⟩
            refine ⟨fun e h => absurd h (by simp), fun h => absurd h (by simp), ?_, ?_⟩
            · intro raw2 err2 h1 h2
              cases h1
              rw [hs] at h2
              cases h2
            · intro raw2 spec2 h1 h2
              cases h1
              rw [hs] at h2
              cases h2
              rfl

/-- C10, witness: a missing file, an empty file, an unreadable file, a file that
does not parse and a document with a device without edits. -/
theorem ReadSpec_outcomes_witness :
    ReadSpec referenceDeps "vendor.yaml" 10 = (none, none) ∧
      ReadSpec { referenceDeps with ReadFile := fun _ => ([], none) } "vendor.yaml" 10 =
        (none, some (Error.noSpecData "vendor.yaml")) ∧
      ReadSpec { referenceDeps with ReadFile := fun _ => ([], some (Error.os false "permission denied")) }
        "vendor.yaml" 10 =
        (none, some (Error.failedToRead "vendor.yaml" (Error.os false "permission denied"))) ∧
      ReadSpec { referenceDeps with
          ReadFile := fun _ => (bytesOf "a: b: c", none)
          yamlUnmarshal := fun _ => Except.error (Error.external "mapping values are not allowed") }
        "vendor.yaml" 10 =
        (none, some (Error.failedToRead "vendor.yaml"
          (Error.failedToUnmarshal (Error.external "mapping values are not allowed")))) ∧
      ReadSpec { referenceDeps with
          ReadFile := fun _ => (bytesOf "cdiVersion: 0.6.0", none)
          yamlUnmarshal := fun _ => Except.ok (some (exampleSpec [emptyDevice "dev1"]).raw) }
        "vendor.yaml" 10 =
        (none, some (Error.invalidCDISpec (Error.failedAddDevice "dev1" Error.emptyDeviceEdits))) :=
  ⟨(ReadSpec_outcomes referenceDeps "vendor.yaml" 10).1 rfl,
   ((ReadSpec_outcomes { referenceDeps with ReadFile := fun _ => ([], none) } "vendor.yaml" 10).2.2.1
      rfl).2.1 rfl,
   (ReadSpec_outcomes
      { referenceDeps with ReadFile := fun _ => ([], some (Error.os false "permission denied")) }
      "vendor.yaml" 10).2.1 _ rfl rfl,
   ((ReadSpec_outcomes { referenceDeps with
          ReadFile := fun _ => (bytesOf "a: b: c", none)
          yamlUnmarshal := fun _ => Except.error (Error.external "mapping values are not allowed") }
      "vendor.yaml" 10).2.2.1 rfl).1 _ rfl,
   ((ReadSpec_outcomes { referenceDeps with
          ReadFile := fun _ => (bytesOf "cdiVersion: 0.6.0", none)
          yamlUnmarshal := fun _ => Except.ok (some (exampleSpec [emptyDevice "dev1"]).raw) }
      "vendor.yaml" 10).2.2.1 rfl).2.2.1 _ _ rfl rfl⟩

/-- C11: when `newSpec` succeeds, `GetDevice n` is non-nil exactly when some entry
of the device list of the document has name `n`; a Device it returns has name
`n`, is an entry of that list and has the constructed Spec as its owner; for
every entry of the list, `GetDevice` on its name returns that very entry (its
name, Edit Set and annotations) owned by the constructed Spec; and
`GetPriority` is the priority given.  When `newSpec` fails, the Spec it returns
is nil. -/
theorem newSpec_GetDevice (deps : Deps) (raw : specs.Spec) (p : String) (priority : Int) :
    (∀ spec, newSpec deps raw p priority = Except.ok spec →
      (∀ n, (spec.GetDevice n).isSome = true ↔ ∃ d ∈ raw.Devices, d.Name = n) ∧
      (∀ n dev, spec.GetDevice n = some dev →
        dev.raw.Name = n ∧ dev.raw ∈ raw.Devices ∧ dev.GetSpec = some spec.toSpecCore) ∧
      (∀ d ∈ raw.Devices,
        spec.GetDevice d.Name = some { raw := d, spec := some spec.toSpecCore }) ∧
      spec.GetPriority = priority) ∧
    (∀ err, newSpec deps raw p priority = Except.error err →
      returnedSpec (newSpec deps raw p priority) = none) := by
  constructor
  · intro spec h
    have hget := newSpec_devices deps raw p priority spec h
    obtain ⟨spec0, hraw, hval, _⟩ := newSpec_validated deps raw p priority spec h
    have hnodup := validate_ok_nodup deps spec0 _ hval
    rw [hraw] at hnodup
    refine ⟨?_, ?_, ?_, (newSpec_fields deps raw p priority spec h).2.2⟩
    · intro n
      unfold Spec.GetDevice
      rw [hget n]
      cases hf : raw.Devices.find? (fun d => d.Name == n) with
      | some d =>
        have hm := List.mem_of_find?_eq_some hf
        have hp := List.find?_some hf
        simp only [beq_iff_eq] at hp
        simp only [Option.isSome_some, true_iff]
        exact ⟨d, hm, hp⟩
      | none =>
        simp only [Option.isSome_none, Bool.false_eq_true, false_iff, not_exists, not_and]
        intro d hd hdn
        have := List.find?_eq_none.1 hf d hd
        simp [hdn] at this
    · intro n dev hdev
      unfold Spec.GetDevice at hdev
      rw [hget n] at hdev
      cases hf : raw.Devices.find? (fun d => d.Name == n) with
      | some d =>
        rw [hf] at hdev
        simp only [Option.some.injEq] at hdev
        subst hdev
        have hp := List.find?_some hf
        simp only [beq_iff_eq] at hp
        exact ⟨hp, List.mem_of_find?_eq_some hf, rfl⟩
      | none =>
        rw [hf] at hdev
        cases hdev
    · intro d hd
      unfold Spec.GetDevice
      rw [hget d.Name, find_of_nodup raw.Devices d hnodup hd]
  · intro err h
    rw [h]
    rfl

/-- C11, witness: a document with the devices `dev1` and `dev2`, and a document
that fails validation. -/
theorem newSpec_GetDevice_witness :
    ∃ spec, newSpec referenceDeps (exampleSpec [envDevice "dev1", envDevice "dev2"]).raw "vendor.json" 7 =
        Except.ok spec ∧
      spec.GetDevice "dev2" = some { raw := envDevice "dev2", spec := some spec.toSpecCore } ∧
      (spec.GetDevice "dev3").isSome = false ∧
      spec.GetPriority = 7 ∧
      returnedSpec (newSpec referenceDeps (exampleSpec [emptyDevice "dev1"]).raw "vendor.json" 7) = none :=
  have h := newSpec_GetDevice referenceDeps (exampleSpec [envDevice "dev1", envDevice "dev2"]).raw
    "vendor.json" 7
  ⟨_, rfl, ((h.1 _ rfl).2.2.1) (envDevice "dev2") (by decide),
    Bool.eq_false_iff.2 (fun hs => absurd (((h.1 _ rfl).1 "dev3").1 hs) (by decide)),
    (h.1 _ rfl).2.2.2,
    (newSpec_GetDevice referenceDeps (exampleSpec [emptyDevice "dev1"]).raw "vendor.json" 7).2 _ rfl⟩

/-- C12: a string is in the table `validHookNames` if and only if it is one of
`prestart`, `createRuntime`, `createContainer`, `startContainer`, `poststart`,
`poststop`; the table has six distinct members; `bogusHook` is not in it, nor is
`Prestart`; an Edit Set with a hook named `bogusHook` is rejected by the Edit
Set check, and `Spec.validate` under that check fails on every Spec that has
such a hook in its spec-level Edit Set or in the Edit Set of a device. -/
theorem validHookNames_closed :
    (∀ h : String, h ∈ validHookNames ↔
      (h = "prestart" ∨ h = "createRuntime" ∨ h = "createContainer" ∨ h = "startContainer" ∨
        h = "poststart" ∨ h = "poststop")) ∧
      validHookNames.Nodup ∧ validHookNames.length = 6 ∧
      "bogusHook" ∉ validHookNames ∧ "Prestart" ∉ validHookNames ∧
      (∀ e : specs.ContainerEdits, (∃ hook ∈ e.Hooks, hook.HookName = "bogusHook") →
        (checkEdits e).isSome = true) ∧
      (∀ (deps : Deps) (s : Spec), deps.Validate = checkEdits →
        ((∃ hook ∈ s.raw.ContainerEdits.Hooks, hook.HookName = "bogusHook") ∨
          ∃ d ∈ s.raw.Devices, ∃ hook ∈ d.ContainerEdits.Hooks, hook.HookName = "bogusHook") →
        ∃ err, s.validate deps = Except.error err) := by
  have hbogus : "bogusHook" ∉ validHookNames := by decide
  have hedits : ∀ e : specs.ContainerEdits, (∃ hook ∈ e.Hooks, hook.HookName = "bogusHook") →
      (checkEdits e).isSome = true := by
    intro e ⟨hook, hmem, hname⟩
    exact checkEdits_of_unknown_hook e ⟨hook, hmem, by rw [hname]; exact hbogus⟩
  refine ⟨?_, by decide, rfl, hbogus, by decide, hedits, ?_⟩
  · intro h
    simp [validHookNames, PrestartHook, CreateRuntimeHook, CreateContainerHook, StartContainerHook,
      PoststartHook, PoststopHook]
  · intro deps s hv hcase
    cases hres : s.validate deps with
    | error err => exact ⟨err, rfl⟩
    | ok m =>
      exfalso
      have he := validate_error deps s
      rw [hres] at he
      have h2 := (firstError_eq_none _).1 he.symm
      unfold Spec.checksInCodeOrder at h2
      rcases hcase with hspec | ⟨d, hd, hdev⟩
      · have h3 := h2 (deps.Validate s.edits.raw)
          (List.mem_append_left _ (by simp [Spec.preChecks]))
        have h4 := hedits s.raw.ContainerEdits hspec
        rw [hv] at h3
        simp only [Spec.edits] at h3
        rw [h3] at h4
        cases h4
      · have h3 : ∀ c ∈ s.deviceChecks deps [] s.raw.Devices, c = none :=
          fun c hc => h2 c (List.mem_append_right _ hc)
        rw [deviceChecks_none] at h3
        have h4 := (constructionCheck_eq_none deps s d).1 (h3.1 d hd)
        have h5 := hedits d.ContainerEdits hdev
        rw [hv] at h4
        rw [h4.2.2.2] at h5
        cases h5

/-- C12, witness: `poststop` is recognised, and the Spec whose device `dev1` has
a hook named `bogusHook` fails validation. -/
theorem validHookNames_closed_witness :
    "poststop" ∈ validHookNames ∧
      ∃ err, (exampleSpec [bogusHookDevice "dev1"]).validate referenceDeps = Except.error err :=
  ⟨(validHookNames_closed.1 "poststop").2 (by decide),
   validHookNames_closed.2.2.2.2.2.2 referenceDeps (exampleSpec [bogusHookDevice "dev1"]) rfl
     (Or.inr ⟨bogusHookDevice "dev1", by decide, ⟨_, List.mem_singleton.2 rfl, rfl⟩⟩)⟩

/-- C13: for data whose trimmed form begins with an opening brace, the untyped
map of `ValidateData` stays nil, `validateContents` on a nil map returns no
error, so `ValidateData` returns what the schema check returns; and under the
no-op schema or a nil Schema it returns no error. -/
theorem ValidateData_json_shaped (lib : schema.Lib) (s : Option schema.Schema) (data : Bytes)
    (h : schema.HasPrefix (lib.TrimSpace data) [123] = true) :
    schema.Schema.decode lib data = Except.ok (none, data) ∧
      schema.Schema.validateContents lib s none = none ∧
      schema.Schema.ValidateData lib s data = schema.Schema.validate s (schema.JSONLoader.bytes data) ∧
      schema.Schema.ValidateData lib (some schema.NopSchema) data = none ∧
      schema.Schema.ValidateData lib none data = none := by
  have hd : schema.Schema.decode lib data = Except.ok (none, data) := by
    unfold schema.Schema.decode
    simp [h]
  have hc : ∀ s2 : Option schema.Schema, schema.Schema.validateContents lib s2 none = none := by
    intro s2
    unfold schema.Schema.validateContents
    cases s2 <;> rfl
  have hv : ∀ s2 : Option schema.Schema,
      schema.Schema.ValidateData lib s2 data = schema.Schema.validate s2 (schema.JSONLoader.bytes data) := by
    intro s2
    unfold schema.Schema.ValidateData
    rw [hd]
    simp only
    cases hval : schema.Schema.validate s2 (schema.JSONLoader.bytes data) with
    | some err => rfl
    | none => exact hc s2
  refine ⟨hd, hc s, hv s, ?_, ?_⟩
  · rw [hv]; rfl
  · rw [hv]; rfl

/-- C13, witness: a JSON document, after a leading space, whose annotations have
an empty key. -/
theorem ValidateData_json_shaped_witness :
    schema.Schema.decode schema.referenceLib
        (bytesOf " \x7b\"annotations\": \x7b\"\": \"x\"\x7d\x7d\n") =
        Except.ok (none, bytesOf " \x7b\"annotations\": \x7b\"\": \"x\"\x7d\x7d\n") ∧
      schema.Schema.ValidateData schema.referenceLib (some schema.NopSchema)
        (bytesOf " \x7b\"annotations\": \x7b\"\": \"x\"\x7d\x7d\n") = none ∧
      schema.Schema.ValidateData schema.referenceLib none
        (bytesOf " \x7b\"annotations\": \x7b\"\": \"x\"\x7d\x7d\n") = none :=
  have h := ValidateData_json_shaped schema.referenceLib (some schema.NopSchema)
    (bytesOf " \x7b\"annotations\": \x7b\"\": \"x\"\x7d\x7d\n") (by decide)
  ⟨h.1, h.2.2.2.1, h.2.2.2.2⟩

end CDI
